import Mathlib

/-!
Verification of the JSON-to-V2Ray-URI conversion core of the
`v2ray-telegram-bot` repository (files `v2ray_converter.py`,
`validators_Version2.py`, `utils_Version2.py`).

The Python code is shallowly embedded: strings become `List Char`, byte
strings become `List Nat` (each element below 256), parsed JSON values
become the inductive type `Json`, pydantic models become records together
with explicit validation functions that accumulate errors the way
pydantic v1 does, and every Python exception path is made explicit in an
`Except` result.
-/

namespace VC

/-! ## Decimal rendering and parsing (models Python `str(int)` / `int(str)`) -/

/-- Decimal digit character for a value below ten. -/
def digitChar (n : Nat) : Char := Char.ofNat (48 + n)

/-- Fuel-based decimal rendering of a natural number; with fuel above `n`
it renders all digits of `n`.  Models Python `str` on nonnegative ints. -/
def natReprAux : Nat → Nat → List Char
  | 0, _ => []
  | fuel + 1, n =>
    if n < 10 then [digitChar n] else natReprAux fuel (n / 10) ++ [digitChar (n % 10)]

/-- Decimal rendering of a natural number. -/
def natRepr (n : Nat) : List Char := natReprAux (n + 1) n

/-- Decimal rendering of an integer, models Python `str(int)`. -/
def intRepr (n : Int) : List Char :=
  if n < 0 then '-' :: natRepr (-n).toNat else natRepr n.toNat

/-- Value of a decimal digit character. -/
def digitVal (c : Char) : Option Nat :=
  if '0' ≤ c ∧ c ≤ '9' then some (c.toNat - 48) else none

/-- Left-to-right accumulation of decimal digits; fails on a non-digit. -/
def parseDigits : List Char → Nat → Option Nat
  | [], acc => some acc
  | c :: rest, acc =>
    match digitVal c with
    | some d => parseDigits rest (acc * 10 + d)
    | none => none

/-- Models CPython `int(str)` on simple decimal strings: optional
surrounding spaces, an optional sign, then one or more decimal digits.
Underscore digit grouping and non-ASCII digits are not modelled; no claim
depends on them. -/
def parsePyInt (s : List Char) : Option Int :=
  let t := ((s.dropWhile (fun c => c = ' ')).reverse.dropWhile (fun c => c = ' ')).reverse
  match t with
  | [] => none
  | '+' :: rest => if rest = [] then none else (parseDigits rest 0).map Int.ofNat
  | '-' :: rest => if rest = [] then none else (parseDigits rest 0).map (fun n => -(Int.ofNat n))
  | rest => (parseDigits rest 0).map Int.ofNat

lemma digitVal_digitChar {n : Nat} (h : n < 10) : digitVal (digitChar n) = some n := by
  interval_cases n <;> decide

lemma parseDigits_append (xs ys : List Char) (acc : Nat) :
    parseDigits (xs ++ ys) acc =
      match parseDigits xs acc with
      | some m => parseDigits ys m
      | none => none := by
  induction xs generalizing acc with
  | nil => simp [parseDigits]
  | cons c rest ih =>
    simp only [List.cons_append, parseDigits]
    cases digitVal c with
    | none => simp
    | some d => simp [ih]

lemma parseDigits_natReprAux : ∀ (fuel n acc : Nat), n < fuel →
    parseDigits (natReprAux fuel n) acc =
      some (acc * 10 ^ (natReprAux fuel n).length + n)
  | 0, _, _, h => by omega
  | fuel + 1, n, acc, _h => by
    by_cases h10 : n < 10
    · simp [natReprAux, h10, parseDigits, digitVal_digitChar h10]
    · have hlt : n / 10 < fuel := by omega
      have ih := parseDigits_natReprAux fuel (n / 10) acc hlt
      simp only [natReprAux, if_neg h10, parseDigits_append, ih, List.length_append,
        List.length_cons, List.length_nil]
      have hd : digitVal (digitChar (n % 10)) = some (n % 10) :=
        digitVal_digitChar (by omega)
      simp only [parseDigits, hd, pow_succ, ← mul_assoc]
      congr 1
      generalize acc * 10 ^ (natReprAux fuel (n / 10)).length = k
      omega

lemma natReprAux_mem_digit : ∀ (fuel n : Nat), n < fuel →
    ∀ c ∈ natReprAux fuel n, ∃ d, d < 10 ∧ c = digitChar d
  | 0, _, h, _, _ => by omega
  | fuel + 1, n, _h, c, hc => by
    by_cases h10 : n < 10
    · simp [natReprAux, h10] at hc
      exact ⟨n, h10, hc⟩
    · simp only [natReprAux, if_neg h10, List.mem_append, List.mem_singleton] at hc
      rcases hc with hc | hc
      · exact natReprAux_mem_digit fuel (n / 10) (by omega) c hc
      · exact ⟨n % 10, by omega, hc⟩

lemma natReprAux_ne_nil (fuel n : Nat) (h : n < fuel) : natReprAux fuel n ≠ [] := by
  cases fuel with
  | zero => omega
  | succ fuel =>
    by_cases h10 : n < 10 <;> simp [natReprAux, h10]

lemma digitChar_ne_space {d : Nat} (h : d < 10) : digitChar d ≠ ' ' := by
  interval_cases d <;> decide

lemma digitChar_ne_plus {d : Nat} (h : d < 10) : digitChar d ≠ '+' := by
  interval_cases d <;> decide

lemma digitChar_ne_minus {d : Nat} (h : d < 10) : digitChar d ≠ '-' := by
  interval_cases d <;> decide

lemma dropWhile_eq_self_of_all {p : Char → Bool} {s : List Char}
    (h : ∀ c ∈ s, p c = false) : s.dropWhile p = s := by
  cases s with
  | nil => rfl
  | cons c rest => simp [List.dropWhile_cons, h c (by simp)]

/-- Parsing the decimal rendering of a natural number recovers it. -/
lemma parsePyInt_natRepr (n : Nat) : parsePyInt (natRepr n) = some (Int.ofNat n) := by
  have hmem := natReprAux_mem_digit (n + 1) n (by omega)
  have hnosp : ∀ c ∈ natRepr n, (c = ' ' : Bool) = false := by
    intro c hc
    obtain ⟨d, hd, rfl⟩ := hmem c hc
    simp [digitChar_ne_space hd]
  have h1 : (natRepr n).dropWhile (fun c => c = ' ') = natRepr n :=
    dropWhile_eq_self_of_all hnosp
  have hnosp' : ∀ c ∈ (natRepr n).reverse, (c = ' ' : Bool) = false := by
    intro c hc; exact hnosp c (List.mem_reverse.mp hc)
  have h2 : (natRepr n).reverse.dropWhile (fun c => c = ' ') = (natRepr n).reverse :=
    dropWhile_eq_self_of_all hnosp'
  unfold parsePyInt
  simp only [h1, h2, List.reverse_reverse]
  have hne := natReprAux_ne_nil (n + 1) n (by omega)
  rcases hhead : natRepr n with _ | ⟨c, rest⟩
  · exact absurd hhead hne
  · have hcmem : c ∈ natRepr n := by rw [hhead]; simp
    obtain ⟨d, hd, hcd⟩ := hmem c hcmem
    have hplus : c ≠ '+' := hcd ▸ digitChar_ne_plus hd
    have hminus : c ≠ '-' := hcd ▸ digitChar_ne_minus hd
    have hparse : parseDigits (natRepr n) 0 = some n := by
      have := parseDigits_natReprAux (n + 1) n 0 (by omega)
      simpa using this
    rw [hhead] at hparse
    split
    · rename_i heq; simp at heq
    · rename_i heq
      injection heq with hc _
      exact absurd hc hplus
    · rename_i heq
      injection heq with hc _
      exact absurd hc hminus
    · simp [hparse]

/-! ## UTF-8 encoding of characters (models Python `str.encode()`) -/

/-- UTF-8 bytes of one character, as natural numbers below 256. -/
def utf8Bytes (c : Char) : List Nat :=
  let n := c.toNat
  if n < 128 then [n]
  else if n < 2048 then [192 + n / 64, 128 + n % 64]
  else if n < 65536 then [224 + n / 4096, 128 + n / 64 % 64, 128 + n % 64]
  else [240 + n / 262144, 128 + n / 4096 % 64, 128 + n / 64 % 64, 128 + n % 64]

/-- UTF-8 bytes of a string. -/
def utf8Str (s : List Char) : List Nat := s.flatMap utf8Bytes

lemma char_toNat_lt_codespace (c : Char) : c.toNat < 1114112 := by
  have h := c.valid
  rcases h with h | ⟨_, h⟩
  · calc c.toNat < 0xd800 := h
      _ < 1114112 := by norm_num
  · exact h

lemma utf8Bytes_lt (c : Char) : ∀ b ∈ utf8Bytes c, b < 256 := by
  have hbound := char_toNat_lt_codespace c
  intro b hb
  simp only [utf8Bytes] at hb
  split_ifs at hb <;> fin_cases hb <;> omega

lemma utf8Str_lt (s : List Char) : ∀ b ∈ utf8Str s, b < 256 := by
  intro b hb
  unfold utf8Str at hb
  rw [List.mem_flatMap] at hb
  obtain ⟨c, _, hbc⟩ := hb
  exact utf8Bytes_lt c b hbc

/-! ## Percent-encoding (models `urllib.parse.quote` / `quote_plus` / `urlencode`) -/

/-- Uppercase hexadecimal digit character for a value below sixteen. -/
def hexDigitUpper (n : Nat) : Char := if n < 10 then digitChar n else Char.ofNat (55 + n)

/-- Lowercase hexadecimal digit character for a value below sixteen. -/
def hexDigitLower (n : Nat) : Char := if n < 10 then digitChar n else Char.ofNat (87 + n)

/-- Percent escape of a byte, uppercase as produced by `urllib.parse.quote`. -/
def pctByte (b : Nat) : List Char := ['%', hexDigitUpper (b / 16), hexDigitUpper (b % 16)]

/-- The characters `urllib.parse.quote` never escapes: ASCII letters,
digits, and `_.-~`. -/
def isUnreservedByte (b : Nat) : Bool :=
  (48 ≤ b && b ≤ 57) || (65 ≤ b && b ≤ 90) || (97 ≤ b && b ≤ 122) ||
    b == 45 || b == 46 || b == 95 || b == 126

/-- `urllib.parse.quote(s)` with its default `safe='/'`: the string is
UTF-8 encoded and every byte outside the unreserved set and `/` (47) is
percent-escaped. -/
def pyQuote (s : List Char) : List Char :=
  (utf8Str s).flatMap fun b =>
    if isUnreservedByte b || b == 47 then [Char.ofNat b] else pctByte b

/-- `urllib.parse.quote_plus(s)` with `safe=''` as used by `urlencode`:
like `quote` but a space becomes `+` and `/` is escaped. -/
def pyQuotePlus (s : List Char) : List Char :=
  (utf8Str s).flatMap fun b =>
    if b == 32 then ['+'] else if isUnreservedByte b then [Char.ofNat b] else pctByte b

/-- Joining string pieces with `&`, as Python's `"&".join`. -/
def joinAmp : List (List Char) → List Char
  | [] => []
  | [x] => x
  | x :: y :: rest => x ++ '&' :: joinAmp (y :: rest)

/-- `urllib.parse.urlencode` over a key/value sequence: each pair becomes
`quote_plus(key)=quote_plus(value)` and the pairs are joined by `&`. -/
def urlencode (params : List (List Char × List Char)) : List Char :=
  joinAmp (params.map fun kv => pyQuotePlus kv.1 ++ '=' :: pyQuotePlus kv.2)

lemma urlencode_ne_nil (p : List Char × List Char) (ps : List (List Char × List Char)) :
    urlencode (p :: ps) ≠ [] := by
  unfold urlencode
  cases ps with
  | nil =>
    simp only [List.map_cons, List.map_nil, joinAmp]
    intro h
    have := congrArg List.length h
    simp at this
  | cons q qs =>
    simp only [List.map_cons, joinAmp]
    intro h
    have := congrArg List.length h
    simp at this

/-! ## Base64 (models Python `base64.b64encode` / `b64decode`) -/

/-- The base64 alphabet character for a sextet value below 64. -/
def b64Char (n : Nat) : Char :=
  ("ABCDEFGHIJKLMNOPQRSTUVWXYZabcdefghijklmnopqrstuvwxyz0123456789+/".toList).getD n '?'

/-- The sextet value of a base64 alphabet character. -/
def b64CharVal (c : Char) : Option Nat :=
  ("ABCDEFGHIJKLMNOPQRSTUVWXYZabcdefghijklmnopqrstuvwxyz0123456789+/".toList).findIdx?
    (fun x => x = c)

/-- Standard base64 encoding of a byte sequence, with `=` padding and no
line wrapping, as produced by `base64.b64encode`. -/
def b64encode : List Nat → List Char
  | [] => []
  | [a] => [b64Char (a / 4), b64Char (a % 4 * 16), '=', '=']
  | [a, b] => [b64Char (a / 4), b64Char (a % 4 * 16 + b / 16), b64Char (b % 16 * 4), '=']
  | a :: b :: c :: rest =>
    b64Char (a / 4) :: b64Char (a % 4 * 16 + b / 16) :: b64Char (b % 16 * 4 + c / 64) ::
      b64Char (c % 64) :: b64encode rest

/-- Base64 decoding of a correctly padded base64 text. -/
def b64decode : List Char → Option (List Nat)
  | [] => some []
  | w :: x :: y :: z :: rest =>
    match b64CharVal w, b64CharVal x with
    | some a, some b =>
      if y = '=' then
        if z = '=' ∧ rest = [] then some [a * 4 + b / 16] else none
      else
        match b64CharVal y with
        | some c =>
          if z = '=' then
            if rest = [] then some [a * 4 + b / 16, b % 16 * 16 + c / 4] else none
          else
            match b64CharVal z with
            | some d =>
              (b64decode rest).map fun bs =>
                (a * 4 + b / 16) :: (b % 16 * 16 + c / 4) :: (c % 4 * 64 + d) :: bs
            | none => none
        | none => none
    | _, _ => none
  | _ => none

lemma b64_table : ∀ n < 64, b64CharVal (b64Char n) = some n ∧ b64Char n ≠ '=' := by
  decide

lemma b64CharVal_b64Char {n : Nat} (h : n < 64) : b64CharVal (b64Char n) = some n :=
  (b64_table n h).1

lemma b64Char_ne_eq {n : Nat} (h : n < 64) : b64Char n ≠ '=' :=
  (b64_table n h).2

/-- Decoding inverts encoding on genuine byte sequences. -/
theorem b64decode_b64encode : ∀ (bs : List Nat), (∀ b ∈ bs, b < 256) →
    b64decode (b64encode bs) = some bs
  | [], _ => by simp [b64encode, b64decode]
  | [a], h => by
    have ha : a < 256 := h a (by simp)
    have h1 : a / 4 < 64 := by omega
    have h2 : a % 4 * 16 < 64 := by omega
    simp only [b64encode, b64decode, b64CharVal_b64Char h1, b64CharVal_b64Char h2]
    norm_num
    omega
  | [a, b], h => by
    have ha : a < 256 := h a (by simp)
    have hb : b < 256 := h b (by simp)
    have h1 : a / 4 < 64 := by omega
    have h2 : a % 4 * 16 + b / 16 < 64 := by omega
    have h3 : b % 16 * 4 < 64 := by omega
    simp only [b64encode, b64decode, b64CharVal_b64Char h1, b64CharVal_b64Char h2,
      if_neg (b64Char_ne_eq h3), b64CharVal_b64Char h3]
    norm_num
    constructor <;> omega
  | a :: b :: c :: rest, h => by
    have ha : a < 256 := h a (by simp)
    have hb : b < 256 := h b (by simp)
    have hc : c < 256 := h c (by simp)
    have h1 : a / 4 < 64 := by omega
    have h2 : a % 4 * 16 + b / 16 < 64 := by omega
    have h3 : b % 16 * 4 + c / 64 < 64 := by omega
    have h4 : c % 64 < 64 := by omega
    have ih := b64decode_b64encode rest (by
      intro x hx
      exact h x (by simp only [List.mem_cons] at hx ⊢; tauto))
    simp only [b64encode]
    simp only [b64decode, b64CharVal_b64Char h1, b64CharVal_b64Char h2,
      if_neg (b64Char_ne_eq h3), b64CharVal_b64Char h3, if_neg (b64Char_ne_eq h4),
      b64CharVal_b64Char h4, ih, Option.map_some']
    refine congrArg some ?_
    have e1 : (a / 4) * 4 + (a % 4 * 16 + b / 16) / 16 = a := by omega
    have e2 : (a % 4 * 16 + b / 16) % 16 * 16 + (b % 16 * 4 + c / 64) / 4 = b := by omega
    have e3 : (b % 16 * 4 + c / 64) % 4 * 64 + c % 64 = c := by omega
    rw [e1, e2, e3]

/-! ## Parsed JSON values and objects

A conversion request arrives as JSON text; `json.loads` turns it into a
Python dict.  The claims quantify over inputs that parse successfully, so
the embedding starts from the parsed value.  Only scalar field values are
modelled; keys are kept in insertion order and assumed duplicate-free
(for objects with duplicate keys `json.loads` keeps the last one). -/

inductive Json where
  | jnull
  | jbool (b : Bool)
  | jnum (n : Int)
  | jstr (s : List Char)
deriving DecidableEq

/-- A parsed JSON object: association list from keys to values. -/
abbrev JObj : Type := List (String × Json)

/-- Dictionary lookup. -/
def jget : JObj → String → Option Json
  | [], _ => none
  | (k, v) :: rest, key => if k = key then some v else jget rest key

/-- Lookup through a list of candidate keys, first hit wins.  Models
pydantic v1 field population: the alias is tried before the field name
(`allow_population_by_field_name = True`). -/
def jgetKeys (raw : JObj) : List String → Option Json
  | [] => none
  | k :: ks =>
    match jget raw k with
    | some v => some v
    | none => jgetKeys raw ks

/-! ## Compact JSON serialization (models `json.dumps(obj, separators=(',', ':'))`) -/

/-- Four lowercase hex digits, as in Python's `\uXXXX` escapes. -/
def hex4 (n : Nat) : List Char :=
  [hexDigitLower (n / 4096 % 16), hexDigitLower (n / 256 % 16),
   hexDigitLower (n / 16 % 16), hexDigitLower (n % 16)]

/-- Escaping of one character inside a JSON string, following
`json.dumps` with its default `ensure_ascii=True`. -/
def jsonEscapeChar (c : Char) : List Char :=
  if c = '"' then ['\\', '"']
  else if c = '\\' then ['\\', '\\']
  else if c = '\n' then ['\\', 'n']
  else if c = '\r' then ['\\', 'r']
  else if c = '\t' then ['\\', 't']
  else if c = '\x08' then ['\\', 'b']
  else if c = '\x0c' then ['\\', 'f']
  else if c.toNat < 32 then '\\' :: 'u' :: hex4 c.toNat
  else if c.toNat < 128 then [c]
  else if c.toNat < 65536 then '\\' :: 'u' :: hex4 c.toNat
  else
    let n := c.toNat - 65536
    '\\' :: 'u' :: hex4 (55296 + n / 1024) ++ '\\' :: 'u' :: hex4 (56320 + n % 1024)

/-- Serialization of a JSON string literal. -/
def jsonDumpStr (s : List Char) : List Char :=
  '"' :: s.flatMap jsonEscapeChar ++ ['"']

/-- Serialization of a scalar JSON value. -/
def jsonDumpVal : Json → List Char
  | .jnull => "null".toList
  | .jbool b => if b then "true".toList else "false".toList
  | .jnum n => intRepr n
  | .jstr s => jsonDumpStr s

/-- Joining with `,` (compact item separator). -/
def joinComma : List (List Char) → List Char
  | [] => []
  | [x] => x
  | x :: y :: rest => x ++ ',' :: joinComma (y :: rest)

/-- Compact serialization of a JSON object with scalar values, matching
`json.dumps(obj, separators=(',', ':'))` for string-keyed dicts. -/
def jsonDumps (obj : List (String × Json)) : List Char :=
  '\x7b' :: joinComma (obj.map fun kv => jsonDumpStr kv.1.toList ++ ':' :: jsonDumpVal kv.2)
    ++ ['\x7d']

/-! ## UUID acceptance

`VLESSConfig.validate_uuid` and `VMESSConfig.validate_uuid` call the
CPython constructor `uuid.UUID(v)`, whose string parsing removes every
occurrence of `urn:` and then of `uuid:`, strips surrounding braces,
removes all hyphens, and finally requires exactly 32 hexadecimal digits.
(The tolerance of CPython's `int(hex, 16)` for underscores and
whitespace inside the 32 characters is not modelled; no claim depends on
it.)  The strict utility `StringValidator.is_valid_uuid` in
`utils_Version2.py` instead matches the canonical 8-4-4-4-12 form. -/

/-- Hexadecimal digit test, case-insensitive. -/
def isHexDigit (c : Char) : Bool :=
  ('0' ≤ c && c ≤ '9') || ('a' ≤ c && c ≤ 'f') || ('A' ≤ c && c ≤ 'F')

/-- Removal of every occurrence of `urn:`, left to right, as
`str.replace("urn:", "")`. -/
def removeUrn : List Char → List Char
  | 'u' :: 'r' :: 'n' :: ':' :: rest => removeUrn rest
  | c :: rest => c :: removeUrn rest
  | [] => []

/-- Removal of every occurrence of `uuid:`, left to right, as
`str.replace("uuid:", "")`. -/
def removeUuidColon : List Char → List Char
  | 'u' :: 'u' :: 'i' :: 'd' :: ':' :: rest => removeUuidColon rest
  | c :: rest => c :: removeUuidColon rest
  | [] => []

def isBrace (c : Char) : Bool := c = '\x7b' || c = '\x7d'

/-- Python `str.strip("{}")`: brace characters are removed from both ends. -/
def stripBraces (s : List Char) : List Char :=
  ((s.dropWhile isBrace).reverse.dropWhile isBrace).reverse

/-- The 32-character candidate that `uuid.UUID` extracts before testing
that everything is hexadecimal. -/
def uuidCore (s : List Char) : List Char :=
  (stripBraces (removeUuidColon (removeUrn s))).filter fun c => c ≠ '-'

/-- The set of strings the CPython `uuid.UUID` constructor accepts, which
is what the `validate_uuid` validators of the vless and vmess schemas
test. -/
def pyUUIDAccepts (s : List Char) : Bool :=
  (uuidCore s).length = 32 && (uuidCore s).all isHexDigit

/-- A run of exactly `n` hexadecimal digits, returning the remainder. -/
def hexChunk : Nat → List Char → Option (List Char)
  | 0, s => some s
  | _ + 1, [] => none
  | n + 1, c :: s => if isHexDigit c then hexChunk n s else none

/-- One hyphen, returning the remainder. -/
def expectDash : List Char → Option (List Char)
  | '-' :: s => some s
  | _ => none

/-- The canonical 8-4-4-4-12 hex-with-hyphens UUID form, matched
case-insensitively; this is the regular expression of
`StringValidator.is_valid_uuid` (which lowercases its input first). -/
def isCanonicalUuid (s : List Char) : Bool :=
  ((((((((hexChunk 8 s).bind expectDash).bind (hexChunk 4)).bind expectDash).bind
    (hexChunk 4)).bind expectDash).bind (hexChunk 4)).bind expectDash).bind
    (hexChunk 12) = some []

lemma hexChunk_some : ∀ {n : Nat} {s t : List Char}, hexChunk n s = some t →
    ∃ front, s = front ++ t ∧ front.length = n ∧ ∀ c ∈ front, isHexDigit c = true := by
  intro n
  induction n with
  | zero =>
    intro s t h
    simp only [hexChunk, Option.some.injEq] at h
    exact ⟨[], by simp [h]⟩
  | succ m ih =>
    intro s t h
    cases s with
    | nil => simp [hexChunk] at h
    | cons c rest =>
      simp only [hexChunk] at h
      by_cases hc : isHexDigit c
      · rw [if_pos hc] at h
        obtain ⟨front, hf1, hf2, hf3⟩ := ih h
        refine ⟨c :: front, by simp [hf1], by simp [hf2], ?_⟩
        intro x hx
        rcases List.mem_cons.mp hx with rfl | hx
        · exact hc
        · exact hf3 x hx
      · rw [if_neg hc] at h
        cases h

lemma expectDash_some : ∀ {s t : List Char}, expectDash s = some t → s = '-' :: t := by
  intro s t h
  rw [expectDash.eq_def] at h
  split at h
  · simp only [Option.some.injEq] at h
    rw [h]
  · cases h

lemma hex_ne_u {c : Char} (h : isHexDigit c = true) : c ≠ 'u' := by
  intro hc; subst hc; exact absurd h (by decide)

lemma hex_ne_dash {c : Char} (h : isHexDigit c = true) : c ≠ '-' := by
  intro hc; subst hc; exact absurd h (by decide)

lemma hex_not_brace {c : Char} (h : isHexDigit c = true) : isBrace c = false := by
  rcases hb : isBrace c with _ | _
  · rfl
  · exfalso
    have : c = '\x7b' ∨ c = '\x7d' := by
      simpa [isBrace, Bool.or_eq_true, decide_eq_true_eq] using hb
    rcases this with rfl | rfl <;> exact absurd h (by decide)

lemma removeUrn_eq_self {s : List Char} (h : ∀ c ∈ s, c ≠ 'u') : removeUrn s = s := by
  induction s with
  | nil => rfl
  | cons c rest ih =>
    have hc : c ≠ 'u' := h c (by simp)
    have hrest : ∀ x ∈ rest, x ≠ 'u' := fun x hx => h x (by simp [hx])
    rw [removeUrn.eq_def]
    split
    · rename_i heq
      injection heq with h1 _
      exact absurd h1 hc
    · rename_i cc tail hcond heqq
      injection heqq with h1 h2
      rw [← h1, ← h2, ih hrest]
    · rename_i heq
      cases heq

lemma removeUuidColon_eq_self {s : List Char} (h : ∀ c ∈ s, c ≠ 'u') :
    removeUuidColon s = s := by
  induction s with
  | nil => rfl
  | cons c rest ih =>
    have hc : c ≠ 'u' := h c (by simp)
    have hrest : ∀ x ∈ rest, x ≠ 'u' := fun x hx => h x (by simp [hx])
    rw [removeUuidColon.eq_def]
    split
    · rename_i heq
      injection heq with h1 _
      exact absurd h1 hc
    · rename_i cc tail hcond heqq
      injection heqq with h1 h2
      rw [← h1, ← h2, ih hrest]
    · rename_i heq
      cases heq

lemma stripBraces_eq_self {s : List Char} (h : ∀ c ∈ s, isBrace c = false) :
    stripBraces s = s := by
  unfold stripBraces
  rw [dropWhile_eq_self_of_all h,
    dropWhile_eq_self_of_all (fun c hc => h c (List.mem_reverse.mp hc)),
    List.reverse_reverse]

/-- Every string in canonical 8-4-4-4-12 form is accepted by the CPython
`uuid.UUID` constructor, hence by the schemas' uuid validators. -/
theorem canonical_pyUUIDAccepts {s : List Char} (h : isCanonicalUuid s = true) :
    pyUUIDAccepts s = true := by
  rw [isCanonicalUuid, decide_eq_true_eq] at h
  rw [Option.bind_eq_some] at h; obtain ⟨t8, h8, h⟩ := h
  rw [Option.bind_eq_some] at h8; obtain ⟨t7, h7, h8⟩ := h8
  rw [Option.bind_eq_some] at h7; obtain ⟨t6, h6, h7⟩ := h7
  rw [Option.bind_eq_some] at h6; obtain ⟨t5, h5, h6⟩ := h6
  rw [Option.bind_eq_some] at h5; obtain ⟨t4, h4, h5⟩ := h5
  rw [Option.bind_eq_some] at h4; obtain ⟨t3, h3, h4⟩ := h4
  rw [Option.bind_eq_some] at h3; obtain ⟨t2, h2, h3⟩ := h3
  rw [Option.bind_eq_some] at h2; obtain ⟨t1, h1, h2⟩ := h2
  obtain ⟨f8, hs, hf8len, hf8hex⟩ := hexChunk_some h1
  have ht1 := expectDash_some h2
  obtain ⟨f4a, ht2, hf4alen, hf4ahex⟩ := hexChunk_some h3
  have ht3 := expectDash_some h4
  obtain ⟨f4b, ht4, hf4blen, hf4bhex⟩ := hexChunk_some h5
  have ht5 := expectDash_some h6
  obtain ⟨f4c, ht6, hf4clen, hf4chex⟩ := hexChunk_some h7
  have ht7 := expectDash_some h8
  obtain ⟨f12, ht8, hf12len, hf12hex⟩ := hexChunk_some h
  rw [List.append_nil] at ht8
  subst ht8 ht7 ht6 ht5 ht4 ht3 ht2 ht1 hs
  set w := f8 ++ '-' :: (f4a ++ '-' :: (f4b ++ '-' :: (f4c ++ '-' :: t8))) with hw
  have hclass : ∀ c ∈ w, isHexDigit c = true ∨ c = '-' := by
    intro c hc
    rw [hw] at hc
    simp only [List.mem_append, List.mem_cons] at hc
    rcases hc with hc | rfl | hc | rfl | hc | rfl | hc | rfl | hc
    · exact Or.inl (hf8hex c hc)
    · exact Or.inr rfl
    · exact Or.inl (hf4ahex c hc)
    · exact Or.inr rfl
    · exact Or.inl (hf4bhex c hc)
    · exact Or.inr rfl
    · exact Or.inl (hf4chex c hc)
    · exact Or.inr rfl
    · exact Or.inl (hf12hex c hc)
  have hne_u : ∀ c ∈ w, c ≠ 'u' := by
    intro c hc
    rcases hclass c hc with hhex | rfl
    · exact hex_ne_u hhex
    · decide
  have hnb : ∀ c ∈ w, isBrace c = false := by
    intro c hc
    rcases hclass c hc with hhex | rfl
    · exact hex_not_brace hhex
    · decide
  have hfilter : ∀ (l : List Char), (∀ c ∈ l, isHexDigit c = true) →
      l.filter (fun c => c ≠ '-') = l := by
    intro l hl
    rw [List.filter_eq_self]
    intro c hc
    simpa using hex_ne_dash (hl c hc)
  have hdash : ∀ (l : List Char),
      ('-' :: l).filter (fun c => (c ≠ '-' : Bool)) = l.filter (fun c => (c ≠ '-' : Bool)) := by
    intro l
    simp [List.filter_cons]
  have hcore : uuidCore w = f8 ++ (f4a ++ (f4b ++ (f4c ++ t8))) := by
    rw [uuidCore, removeUrn_eq_self hne_u, removeUuidColon_eq_self hne_u,
      stripBraces_eq_self hnb, hw]
    rw [List.filter_append, hdash, List.filter_append, hdash, List.filter_append, hdash,
      List.filter_append, hdash]
    rw [hfilter f8 hf8hex, hfilter f4a hf4ahex, hfilter f4b hf4bhex, hfilter f4c hf4chex,
      hfilter t8 hf12hex]
  rw [pyUUIDAccepts, hcore, Bool.and_eq_true]
  constructor
  · rw [decide_eq_true_eq]
    simp [List.length_append, hf8len, hf4alen, hf4blen, hf4clen, hf12len]
  · rw [List.all_eq_true]
    intro c hc
    simp only [List.mem_append] at hc
    rcases hc with hc | hc | hc | hc | hc
    · exact hf8hex c hc
    · exact hf4ahex c hc
    · exact hf4bhex c hc
    · exact hf4chex c hc
    · exact hf12hex c hc

/-! ## Pydantic v1 field validation

Each `BaseModel` subclass in `validators.py` is embedded as a record plus
a validation function over a parsed JSON object.  Pydantic v1 semantics:
fields are processed in declaration order; a missing required field
contributes a `field required` error; a present value is first coerced to
the field type (`str` accepts numbers and booleans via `str(v)`, `int`
accepts decimal strings and booleans), then the `@validator` for the
field runs; errors from different fields accumulate into one
`ValidationError`.  Extra keys are ignored (`Extra.ignore` default). -/

/-- Pydantic v1 coercion into a `str` field. -/
def coerceStr : Json → Option (List Char)
  | .jstr s => some s
  | .jnum n => some (intRepr n)
  | .jbool b => some (if b then "True".toList else "False".toList)
  | .jnull => none

/-- Pydantic v1 coercion into an `int` field. -/
def coerceInt : Json → Option Int
  | .jnum n => some n
  | .jstr s => parsePyInt s
  | .jbool b => some (if b then 1 else 0)
  | .jnull => none

deriving instance DecidableEq for Except

/-- One entry of a pydantic `ValidationError`. -/
inductive VErr where
  | missing (field : String)
  | invalid (field : String) (msg : List Char)
deriving DecidableEq

def missingName : VErr → Option String
  | .missing f => some f
  | .invalid _ _ => none

def noneMsg : List Char := "none is not an allowed value".toList

def intTypeMsg : List Char := "value is not a valid integer".toList

/-- Required `str` field with a `@validator` returning an error message on
bad input. -/
def reqStrF (raw : JObj) (keys : List String) (fname : String)
    (check : List Char → Option (List Char)) : Except VErr (List Char) :=
  match jgetKeys raw keys with
  | none => .error (.missing fname)
  | some v =>
    match coerceStr v with
    | none => .error (.invalid fname noneMsg)
    | some s =>
      match check s with
      | none => .ok s
      | some msg => .error (.invalid fname msg)

/-- Required `int` field with a `@validator`. -/
def reqIntF (raw : JObj) (keys : List String) (fname : String)
    (check : Int → Option (List Char)) : Except VErr Int :=
  match jgetKeys raw keys with
  | none => .error (.missing fname)
  | some v =>
    match coerceInt v with
    | none => .error (.invalid fname intTypeMsg)
    | some i =>
      match check i with
      | none => .ok i
      | some msg => .error (.invalid fname msg)

/-- `str` field with a default (such as `protocol: str = "vless"`). -/
def strFD (raw : JObj) (keys : List String) (fname : String)
    (deflt : List Char) : Except VErr (List Char) :=
  match jgetKeys raw keys with
  | none => .ok deflt
  | some v =>
    match coerceStr v with
    | none => .error (.invalid fname noneMsg)
    | some s => .ok s

/-- `int` field with a default and a `@validator` (such as `aid`). -/
def intFD (raw : JObj) (keys : List String) (fname : String) (deflt : Int)
    (check : Int → Option (List Char)) : Except VErr Int :=
  match jgetKeys raw keys with
  | none => .ok deflt
  | some v =>
    match coerceInt v with
    | none => .error (.invalid fname intTypeMsg)
    | some i =>
      match check i with
      | none => .ok i
      | some msg => .error (.invalid fname msg)

/-- `Optional[str]` field with a default; an explicit JSON `null` gives
`None`. -/
def optStrF (raw : JObj) (keys : List String) (fname : String)
    (deflt : Option (List Char)) : Except VErr (Option (List Char)) :=
  match jgetKeys raw keys with
  | none => .ok deflt
  | some .jnull => .ok none
  | some v =>
    match coerceStr v with
    | none => .error (.invalid fname noneMsg)
    | some s => .ok (some s)

/-- Error accumulation across fields, in declaration order, as pydantic
v1 gathers all field errors into one `ValidationError`. -/
def accStart : Except VErr α → Except (List VErr) α
  | .ok a => .ok a
  | .error e => .error [e]

def acc2 : Except (List VErr) α → Except VErr β → Except (List VErr) (α × β)
  | .ok a, .ok b => .ok (a, b)
  | .ok _, .error e => .error [e]
  | .error es, .ok _ => .error es
  | .error es, .error e => .error (es ++ [e])

/-- The error entries a single field contributes. -/
def errListOf : Except VErr α → List VErr
  | .ok _ => []
  | .error e => [e]

/-- The error entries of an accumulated result. -/
def errsOf : Except (List VErr) α → List VErr
  | .ok _ => []
  | .error es => es

lemma errsOf_accStart (x : Except VErr α) : errsOf (accStart x) = errListOf x := by
  cases x <;> rfl

lemma errsOf_acc2 (x : Except (List VErr) α) (y : Except VErr β) :
    errsOf (acc2 x y) = errsOf x ++ errListOf y := by
  cases x <;> cases y <;> simp [acc2, errsOf, errListOf]

lemma eq_error_errsOf {x : Except (List VErr) α} (h : errsOf x ≠ []) :
    x = .error (errsOf x) := by
  cases x with
  | ok a => exact absurd rfl h
  | error es => rfl

lemma acc2_ok_iff (x : Except (List VErr) α) (y : Except VErr β) (c : α × β) :
    acc2 x y = .ok c ↔ x = .ok c.1 ∧ y = .ok c.2 := by
  cases x with
  | ok a =>
    cases y with
    | ok b =>
      simp only [acc2]
      constructor
      · intro h
        injection h with h
        rw [← h]
        exact ⟨rfl, rfl⟩
      · rintro ⟨h1, h2⟩
        injection h1 with h1
        injection h2 with h2
        rw [h1, h2]
    | error e => simp [acc2]
  | error es =>
    cases y with
    | ok b => simp [acc2]
    | error e => simp [acc2]

lemma errsOf_map (x : Except (List VErr) α) (f : α → β) : errsOf (x.map f) = errsOf x := by
  cases x <;> rfl

/-! ## Field validators of `validators.py` -/

/-- `validate_uuid`: accepts what `uuid.UUID` accepts; message
`Invalid UUID format: {v}`. -/
def uuidCheck (s : List Char) : Option (List Char) :=
  if pyUUIDAccepts s then none else some ("Invalid UUID format: ".toList ++ s)

/-- The port validator's message. -/
def portMsg (v : Int) : List Char :=
  "Port must be between 1 and 65535, got ".toList ++ intRepr v

/-- `validate_port`: integer in `[1, 65535]`. -/
def portCheck (v : Int) : Option (List Char) :=
  if 1 ≤ v ∧ v ≤ 65535 then none else some (portMsg v)

/-- `validate_aid`: integer in `[0, 65535]`. -/
def aidCheck (v : Int) : Option (List Char) :=
  if 0 ≤ v ∧ v ≤ 65535 then none
  else some ("AlterId must be between 0 and 65535, got ".toList ++ intRepr v)

/-- `validate_password`: length at least four. -/
def pwCheck (s : List Char) : Option (List Char) :=
  if s.length < 4 then some "Password must be at least 4 characters".toList else none

/-- The fixed Shadowsocks cipher allow-list of `validate_method`. -/
def ssMethods : List (List Char) :=
  ["aes-128-gcm".toList, "aes-256-gcm".toList, "chacha20-poly1305".toList,
   "aes-128-ctr".toList, "aes-192-ctr".toList, "aes-256-ctr".toList,
   "aes-128-cfb".toList, "aes-192-cfb".toList, "aes-256-cfb".toList,
   "chacha20-ietf-poly1305".toList]

/-- Joining string pieces with `, `, as Python's `", ".join`. -/
def joinCommaSpace : List (List Char) → List Char
  | [] => []
  | [x] => x
  | x :: y :: rest => x ++ ',' :: ' ' :: joinCommaSpace (y :: rest)

/-- `validate_method`: membership in the allow-list. -/
def methodCheck (s : List Char) : Option (List Char) :=
  if s ∈ ssMethods then none
  else some ("Invalid method. Supported: ".toList ++ joinCommaSpace ssMethods)

/-- A field with no `@validator`. -/
def noCheck (_s : List Char) : Option (List Char) := none

/-! ## The six schemas -/

structure VlessR where
  uuid : List Char
  address : List Char
  port : Int
  protocol : List Char
  encryption : List Char
  flow : Option (List Char)
  tls : Option (List Char)
  sni : Option (List Char)
  alpn : Option (List Char)
  network : Option (List Char)
  path : Option (List Char)
  host : Option (List Char)
  header_type : Option (List Char)
deriving DecidableEq

/-- `VLESSConfig(**config)`: fields in declaration order, `uuid` aliased
to `id`, `header_type` aliased to `headerType`. -/
def validateVless (raw : JObj) : Except (List VErr) VlessR :=
  (acc2 (acc2 (acc2 (acc2 (acc2 (acc2 (acc2 (acc2 (acc2 (acc2 (acc2 (acc2 (accStart
    (reqStrF raw ["id", "uuid"] "uuid" uuidCheck))
    (reqStrF raw ["address"] "address" noCheck))
    (reqIntF raw ["port"] "port" portCheck))
    (strFD raw ["protocol"] "protocol" "vless".toList))
    (strFD raw ["encryption"] "encryption" "none".toList))
    (optStrF raw ["flow"] "flow" none))
    (optStrF raw ["tls"] "tls" none))
    (optStrF raw ["sni"] "sni" none))
    (optStrF raw ["alpn"] "alpn" none))
    (optStrF raw ["network"] "network" (some "tcp".toList)))
    (optStrF raw ["path"] "path" none))
    (optStrF raw ["host"] "host" none))
    (optStrF raw ["headerType", "header_type"] "header_type" none)).map
    fun c =>
      match c with
      | ((((((((((((u, a), p), pr), en), fl), tl), sn), al), nw), pa), ho), ht) =>
        ⟨u, a, p, pr, en, fl, tl, sn, al, nw, pa, ho, ht⟩

structure VmessR where
  uuid : List Char
  address : List Char
  port : Int
  protocol : List Char
  aid : Int
  cipher : List Char
  tls : Option (List Char)
  sni : Option (List Char)
  network : Option (List Char)
  path : Option (List Char)
  host : Option (List Char)
deriving DecidableEq

/-- `VMESSConfig(**config)`.  Note: this schema has no `header_type`
field. -/
def validateVmess (raw : JObj) : Except (List VErr) VmessR :=
  (acc2 (acc2 (acc2 (acc2 (acc2 (acc2 (acc2 (acc2 (acc2 (acc2 (accStart
    (reqStrF raw ["id", "uuid"] "uuid" uuidCheck))
    (reqStrF raw ["address"] "address" noCheck))
    (reqIntF raw ["port"] "port" portCheck))
    (strFD raw ["protocol"] "protocol" "vmess".toList))
    (intFD raw ["aid"] "aid" 0 aidCheck))
    (strFD raw ["cipher"] "cipher" "auto".toList))
    (optStrF raw ["tls"] "tls" none))
    (optStrF raw ["sni"] "sni" none))
    (optStrF raw ["network"] "network" (some "tcp".toList)))
    (optStrF raw ["path"] "path" none))
    (optStrF raw ["host"] "host" none)).map
    fun c =>
      match c with
      | ((((((((((u, a), p), pr), ai), ci), tl), sn), nw), pa), ho) =>
        ⟨u, a, p, pr, ai, ci, tl, sn, nw, pa, ho⟩

structure TrojanR where
  password : List Char
  address : List Char
  port : Int
  protocol : List Char
  tls : Option (List Char)
  sni : Option (List Char)
  alpn : Option (List Char)
  network : Option (List Char)
  path : Option (List Char)
  host : Option (List Char)
deriving DecidableEq

/-- `TROJANConfig(**config)`. -/
def validateTrojan (raw : JObj) : Except (List VErr) TrojanR :=
  (acc2 (acc2 (acc2 (acc2 (acc2 (acc2 (acc2 (acc2 (acc2 (accStart
    (reqStrF raw ["password"] "password" pwCheck))
    (reqStrF raw ["address"] "address" noCheck))
    (reqIntF raw ["port"] "port" portCheck))
    (strFD raw ["protocol"] "protocol" "trojan".toList))
    (optStrF raw ["tls"] "tls" (some "tls".toList)))
    (optStrF raw ["sni"] "sni" none))
    (optStrF raw ["alpn"] "alpn" none))
    (optStrF raw ["network"] "network" (some "tcp".toList)))
    (optStrF raw ["path"] "path" none))
    (optStrF raw ["host"] "host" none)).map
    fun c =>
      match c with
      | (((((((((pw, a), p), pr), tl), sn), al), nw), pa), ho) =>
        ⟨pw, a, p, pr, tl, sn, al, nw, pa, ho⟩

structure SsR where
  method : List Char
  password : List Char
  address : List Char
  port : Int
  protocol : List Char
deriving DecidableEq

/-- `ShadowsocksConfig(**config)`. -/
def validateSs (raw : JObj) : Except (List VErr) SsR :=
  (acc2 (acc2 (acc2 (acc2 (accStart
    (reqStrF raw ["method"] "method" methodCheck))
    (reqStrF raw ["password"] "password" pwCheck))
    (reqStrF raw ["address"] "address" noCheck))
    (reqIntF raw ["port"] "port" portCheck))
    (strFD raw ["protocol"] "protocol" "ss".toList)).map
    fun c =>
      match c with
      | ((((m, pw), a), p), pr) => ⟨m, pw, a, p, pr⟩

structure Hy1R where
  protocol : List Char
  auth_string : List Char
  address : List Char
  port : Int
  tls : Option (List Char)
  sni : Option (List Char)
  alpn : Option (List Char)
  protocol_string : Option (List Char)
deriving DecidableEq

/-- `Hysteria1Config(**config)`: `protocol` is declared first;
`auth_string` is aliased to `authString`, `protocol_string` to
`protocolString`. -/
def validateHy1 (raw : JObj) : Except (List VErr) Hy1R :=
  (acc2 (acc2 (acc2 (acc2 (acc2 (acc2 (acc2 (accStart
    (strFD raw ["protocol"] "protocol" "hy".toList))
    (reqStrF raw ["authString", "auth_string"] "auth_string" noCheck))
    (reqStrF raw ["address"] "address" noCheck))
    (reqIntF raw ["port"] "port" portCheck))
    (optStrF raw ["tls"] "tls" (some "tls".toList)))
    (optStrF raw ["sni"] "sni" none))
    (optStrF raw ["alpn"] "alpn" (some "h2".toList)))
    (optStrF raw ["protocolString", "protocol_string"] "protocol_string" none)).map
    fun c =>
      match c with
      | (((((((pr, au), a), p), tl), sn), al), ps) => ⟨pr, au, a, p, tl, sn, al, ps⟩

structure Hy2R where
  protocol : List Char
  password : List Char
  address : List Char
  port : Int
  tls : Option (List Char)
  sni : Option (List Char)
  alpn : Option (List Char)
  obfs : Option (List Char)
  obfs_password : Option (List Char)
deriving DecidableEq

/-- `Hysteria2Config(**config)`: `obfs_password` is aliased to
`obfsPassword`. -/
def validateHy2 (raw : JObj) : Except (List VErr) Hy2R :=
  (acc2 (acc2 (acc2 (acc2 (acc2 (acc2 (acc2 (acc2 (accStart
    (strFD raw ["protocol"] "protocol" "hy2".toList))
    (reqStrF raw ["password"] "password" pwCheck))
    (reqStrF raw ["address"] "address" noCheck))
    (reqIntF raw ["port"] "port" portCheck))
    (optStrF raw ["tls"] "tls" (some "tls".toList)))
    (optStrF raw ["sni"] "sni" none))
    (optStrF raw ["alpn"] "alpn" (some "h3".toList)))
    (optStrF raw ["obfs"] "obfs" none))
    (optStrF raw ["obfsPassword", "obfs_password"] "obfs_password" none)).map
    fun c =>
      match c with
      | ((((((((pr, pw), a), p), tl), sn), al), ob), op) => ⟨pr, pw, a, p, tl, sn, al, ob, op⟩

/-! ## URI encoders of `v2ray_converter.py` -/

/-- Python truthiness of an `Optional[str]` value: `None` and `""` are
falsy. -/
def truthy : Option (List Char) → Bool
  | none => false
  | some s => !s.isEmpty

/-- The value under a truthy optional (only used when `truthy` holds). -/
def getO : Option (List Char) → List Char
  | some s => s
  | none => []

/-- Python `x or default` on an `Optional[str]`. -/
def orDefault (o : Option (List Char)) (d : List Char) : List Char :=
  match o with
  | none => d
  | some s => if s.isEmpty then d else s

/-- `convert_vless` after successful validation: the query always holds
`encryption` and `type`, then conditionally `security`, `sni`, `flow`,
`alpn`, `path`, `host`, `headerType`, in insertion order. -/
def buildVlessUri (c : VlessR) (name : List Char) : List Char :=
  let params : List (List Char × List Char) :=
    [("encryption".toList, c.encryption), ("type".toList, orDefault c.network "tcp".toList)]
    ++ (if truthy c.tls then [("security".toList, getO c.tls)] else [])
    ++ (if truthy c.sni then [("sni".toList, getO c.sni)] else [])
    ++ (if truthy c.flow then [("flow".toList, getO c.flow)] else [])
    ++ (if truthy c.alpn then [("alpn".toList, getO c.alpn)] else [])
    ++ (if truthy c.path then [("path".toList, getO c.path)] else [])
    ++ (if truthy c.host then [("host".toList, getO c.host)] else [])
    ++ (if truthy c.header_type then [("headerType".toList, getO c.header_type)] else [])
  "vless://".toList ++ c.uuid ++ "@".toList ++ c.address ++ ":".toList ++ intRepr c.port
    ++ "?".toList ++ urlencode params ++ "#".toList ++ pyQuote name

/-- `convert_trojan` after successful validation. -/
def buildTrojanUri (c : TrojanR) (name : List Char) : List Char :=
  let params : List (List Char × List Char) :=
    [("type".toList, orDefault c.network "tcp".toList)]
    ++ (if truthy c.tls then [("security".toList, getO c.tls)] else [])
    ++ (if truthy c.sni then [("sni".toList, getO c.sni)] else [])
    ++ (if truthy c.alpn then [("alpn".toList, getO c.alpn)] else [])
    ++ (if truthy c.path then [("path".toList, getO c.path)] else [])
    ++ (if truthy c.host then [("host".toList, getO c.host)] else [])
  "trojan://".toList ++ c.password ++ "@".toList ++ c.address ++ ":".toList ++ intRepr c.port
    ++ "?".toList ++ urlencode params ++ "#".toList ++ pyQuote name

/-- `convert_shadowsocks` after successful validation: the userinfo is
`base64(method:password)`. -/
def buildSsUri (c : SsR) (name : List Char) : List Char :=
  b64encode (utf8Str (c.method ++ ':' :: c.password)) |> fun userinfo =>
  "ss://".toList ++ userinfo ++ "@".toList ++ c.address ++ ":".toList ++ intRepr c.port
    ++ "#".toList ++ pyQuote name

/-- The `params` dict built by `convert_hysteria1`: `tls=1` when `tls`
is truthy, then `sni`, `alpn` and `protocol` (from `protocol_string`)
when truthy, in insertion order. -/
def hy1Params (c : Hy1R) : List (List Char × List Char) :=
  (if truthy c.tls then [("tls".toList, "1".toList)] else [])
  ++ (if truthy c.sni then [("sni".toList, getO c.sni)] else [])
  ++ (if truthy c.alpn then [("alpn".toList, getO c.alpn)] else [])
  ++ (if truthy c.protocol_string then [("protocol".toList, getO c.protocol_string)] else [])

/-- `convert_hysteria1` after successful validation: percent-encoded
`auth_string` userinfo; `query_string = urlencode(params) if params else
""`, and the `?` with the query is only attached when that string is
non-empty. -/
def buildHysteria1Uri (c : Hy1R) (name : List Char) : List Char :=
  let qs : List Char := if hy1Params c = [] then [] else urlencode (hy1Params c)
  let base := "hysteria://".toList ++ pyQuote c.auth_string ++ "@".toList ++ c.address
    ++ ":".toList ++ intRepr c.port
  (if qs = [] then base else base ++ "?".toList ++ qs) ++ "#".toList ++ pyQuote name

/-- The `params` dict built by `convert_hysteria2`. -/
def hy2Params (c : Hy2R) : List (List Char × List Char) :=
  (if truthy c.tls then [("tls".toList, "1".toList)] else [])
  ++ (if truthy c.sni then [("sni".toList, getO c.sni)] else [])
  ++ (if truthy c.alpn then [("alpn".toList, getO c.alpn)] else [])
  ++ (if truthy c.obfs then [("obfs".toList, getO c.obfs)] else [])
  ++ (if truthy c.obfs_password then [("obfs-password".toList, getO c.obfs_password)] else [])

/-- `convert_hysteria2` after successful validation. -/
def buildHysteria2Uri (c : Hy2R) (name : List Char) : List Char :=
  let qs : List Char := if hy2Params c = [] then [] else urlencode (hy2Params c)
  let base := "hy2://".toList ++ pyQuote c.password ++ "@".toList ++ c.address
    ++ ":".toList ++ intRepr c.port
  (if qs = [] then base else base ++ "?".toList ++ qs) ++ "#".toList ++ pyQuote name

/-! ## Protocol handlers and the dispatcher -/

/-- What a protocol handler can raise: a pydantic `ValidationError` from
the schema, or any other Python exception (`AttributeError` for a
missing model attribute). -/
inductive HandlerExc where
  | pydantic (errs : List VErr)
  | attributeError (attr : String)
deriving DecidableEq

def convertVless (raw : JObj) (name : List Char) : Except HandlerExc (List Char) :=
  Except.mapError HandlerExc.pydantic ((validateVless raw).map fun c => buildVlessUri c name)

/-- `convert_vmess` builds its intermediate dict with
`"type": vmess_config.header_type or "none"`, but `VMESSConfig` declares
no `header_type` field, so after a successful validation the attribute
access raises `AttributeError` before any output is produced. -/
def convertVmess (raw : JObj) (_name : List Char) : Except HandlerExc (List Char) :=
  (Except.mapError HandlerExc.pydantic (validateVmess raw)).bind
    fun _ => .error (.attributeError "header_type")

def convertTrojan (raw : JObj) (name : List Char) : Except HandlerExc (List Char) :=
  Except.mapError HandlerExc.pydantic ((validateTrojan raw).map fun c => buildTrojanUri c name)

def convertShadowsocks (raw : JObj) (name : List Char) : Except HandlerExc (List Char) :=
  Except.mapError HandlerExc.pydantic ((validateSs raw).map fun c => buildSsUri c name)

def convertHysteria1 (raw : JObj) (name : List Char) : Except HandlerExc (List Char) :=
  Except.mapError HandlerExc.pydantic ((validateHy1 raw).map fun c => buildHysteria1Uri c name)

def convertHysteria2 (raw : JObj) (name : List Char) : Except HandlerExc (List Char) :=
  Except.mapError HandlerExc.pydantic ((validateHy2 raw).map fun c => buildHysteria2Uri c name)

lemma convertVless_ok {raw : JObj} {c : VlessR} (name : List Char)
    (h : validateVless raw = .ok c) :
    convertVless raw name = .ok (buildVlessUri c name) := by
  rw [convertVless, h]; rfl

lemma convertVless_err {raw : JObj} {es : List VErr} (name : List Char)
    (h : validateVless raw = .error es) :
    convertVless raw name = .error (.pydantic es) := by
  rw [convertVless, h]; rfl

lemma convertVmess_ok {raw : JObj} {c : VmessR} (name : List Char)
    (h : validateVmess raw = .ok c) :
    convertVmess raw name = .error (.attributeError "header_type") := by
  rw [convertVmess, h]; rfl

lemma convertVmess_err {raw : JObj} {es : List VErr} (name : List Char)
    (h : validateVmess raw = .error es) :
    convertVmess raw name = .error (.pydantic es) := by
  rw [convertVmess, h]; rfl

lemma convertTrojan_ok {raw : JObj} {c : TrojanR} (name : List Char)
    (h : validateTrojan raw = .ok c) :
    convertTrojan raw name = .ok (buildTrojanUri c name) := by
  rw [convertTrojan, h]; rfl

lemma convertTrojan_err {raw : JObj} {es : List VErr} (name : List Char)
    (h : validateTrojan raw = .error es) :
    convertTrojan raw name = .error (.pydantic es) := by
  rw [convertTrojan, h]; rfl

lemma convertShadowsocks_ok {raw : JObj} {c : SsR} (name : List Char)
    (h : validateSs raw = .ok c) :
    convertShadowsocks raw name = .ok (buildSsUri c name) := by
  rw [convertShadowsocks, h]; rfl

lemma convertShadowsocks_err {raw : JObj} {es : List VErr} (name : List Char)
    (h : validateSs raw = .error es) :
    convertShadowsocks raw name = .error (.pydantic es) := by
  rw [convertShadowsocks, h]; rfl

lemma convertHysteria1_ok {raw : JObj} {c : Hy1R} (name : List Char)
    (h : validateHy1 raw = .ok c) :
    convertHysteria1 raw name = .ok (buildHysteria1Uri c name) := by
  rw [convertHysteria1, h]; rfl

lemma convertHysteria1_err {raw : JObj} {es : List VErr} (name : List Char)
    (h : validateHy1 raw = .error es) :
    convertHysteria1 raw name = .error (.pydantic es) := by
  rw [convertHysteria1, h]; rfl

lemma convertHysteria2_ok {raw : JObj} {c : Hy2R} (name : List Char)
    (h : validateHy2 raw = .ok c) :
    convertHysteria2 raw name = .ok (buildHysteria2Uri c name) := by
  rw [convertHysteria2, h]; rfl

lemma convertHysteria2_err {raw : JObj} {es : List VErr} (name : List Char)
    (h : validateHy2 raw = .error es) :
    convertHysteria2 raw name = .error (.pydantic es) := by
  rw [convertHysteria2, h]; rfl

/-- The error channel of `V2RayConverter.convert`: the
`Unsupported protocol` `ValueError`, the wrapping
`Configuration validation error` `ValueError` around any handler
exception, or an uncaught Python exception from calling `.lower()` on a
non-string protocol value. -/
inductive ConvErr where
  | unsupportedProtocol (given : List Char)
  | configError (e : HandlerExc)
  | pythonError (msg : List Char)
deriving DecidableEq

/-- The `except Exception` wrapper in `convert`: any handler exception
becomes `ValueError("Configuration validation error: ...")`. -/
def wrapExc : Except HandlerExc (List Char) → Except ConvErr (List Char)
  | .ok u => .ok u
  | .error e => .error (.configError e)

/-- ASCII lowering, as `str.lower()` on the protocol names involved. -/
def toLowerChars (s : List Char) : List Char := s.map Char.toLower

/-- The `protocol_handlers` registry lookup: dict membership plus
handler dispatch, written as a decision chain over the nine keys. -/
def dispatchProto (p : List Char) (raw : JObj) (name : List Char) : Except ConvErr (List Char) :=
  if p = "vless".toList then wrapExc (convertVless raw name)
  else if p = "vmess".toList then wrapExc (convertVmess raw name)
  else if p = "trojan".toList then wrapExc (convertTrojan raw name)
  else if p = "ss".toList then wrapExc (convertShadowsocks raw name)
  else if p = "shadowsocks".toList then wrapExc (convertShadowsocks raw name)
  else if p = "hy".toList then wrapExc (convertHysteria1 raw name)
  else if p = "hysteria".toList then wrapExc (convertHysteria1 raw name)
  else if p = "hy2".toList then wrapExc (convertHysteria2 raw name)
  else if p = "hysteria2".toList then wrapExc (convertHysteria2 raw name)
  else .error (.unsupportedProtocol p)

/-- `V2RayConverter.convert` on an input whose JSON text parsed to an
object: `config.get("protocol", "").lower()` (a non-string value makes
`.lower()` raise an uncaught `AttributeError`), registry lookup, then
the selected handler with every handler exception wrapped. -/
def convert (raw : JObj) (name : List Char) : Except ConvErr (List Char) :=
  match jget raw "protocol" with
  | some (.jstr s) => dispatchProto (toLowerChars s) raw name
  | none => dispatchProto [] raw name
  | some _ => .error (.pythonError "AttributeError: lower".toList)

/-! ## Missing-field bookkeeping (for the accumulation claims) -/

/-- Required fields of a schema as `(field name, lookup keys)` pairs, in
declaration order. -/
def ReqSpec : Type := List (String × List String)

def requiredVless : ReqSpec := [("uuid", ["id", "uuid"]), ("address", ["address"]), ("port", ["port"])]

def requiredVmess : ReqSpec := [("uuid", ["id", "uuid"]), ("address", ["address"]), ("port", ["port"])]

def requiredTrojan : ReqSpec := [("password", ["password"]), ("address", ["address"]), ("port", ["port"])]

def requiredSs : ReqSpec :=
  [("method", ["method"]), ("password", ["password"]), ("address", ["address"]), ("port", ["port"])]

def requiredHy1 : ReqSpec :=
  [("auth_string", ["authString", "auth_string"]), ("address", ["address"]), ("port", ["port"])]

def requiredHy2 : ReqSpec := [("password", ["password"]), ("address", ["address"]), ("port", ["port"])]

/-- The required fields of a spec that are absent from a raw config, in
declaration order. -/
def missingOf (raw : JObj) : ReqSpec → List String
  | [] => []
  | (f, keys) :: rest =>
    (if (jgetKeys raw keys).isNone then [f] else []) ++ missingOf raw rest

lemma filterMap_errListOf_reqStrF (raw : JObj) (keys : List String) (fname : String)
    (check : List Char → Option (List Char)) :
    (errListOf (reqStrF raw keys fname check)).filterMap missingName
      = if (jgetKeys raw keys).isNone then [fname] else [] := by
  rcases h : jgetKeys raw keys with _ | v
  · simp [reqStrF, h, errListOf, missingName]
  · simp only [reqStrF, h, Option.isNone_some, Bool.false_eq_true, if_false]
    rcases h2 : coerceStr v with _ | s
    · simp [h2, errListOf, missingName]
    · rcases h3 : check s with _ | msg
      · simp [h2, h3, errListOf]
      · simp [h2, h3, errListOf, missingName]

lemma filterMap_errListOf_reqIntF (raw : JObj) (keys : List String) (fname : String)
    (check : Int → Option (List Char)) :
    (errListOf (reqIntF raw keys fname check)).filterMap missingName
      = if (jgetKeys raw keys).isNone then [fname] else [] := by
  rcases h : jgetKeys raw keys with _ | v
  · simp [reqIntF, h, errListOf, missingName]
  · simp only [reqIntF, h, Option.isNone_some, Bool.false_eq_true, if_false]
    rcases h2 : coerceInt v with _ | i
    · simp [h2, errListOf, missingName]
    · rcases h3 : check i with _ | msg
      · simp [h2, h3, errListOf]
      · simp [h2, h3, errListOf, missingName]

lemma filterMap_errListOf_strFD (raw : JObj) (keys : List String) (fname : String)
    (deflt : List Char) :
    (errListOf (strFD raw keys fname deflt)).filterMap missingName = [] := by
  rcases h : jgetKeys raw keys with _ | v
  · simp [strFD, h, errListOf]
  · simp only [strFD, h]
    rcases h2 : coerceStr v with _ | s
    · simp [h2, errListOf, missingName]
    · simp [h2, errListOf]

lemma filterMap_errListOf_intFD (raw : JObj) (keys : List String) (fname : String)
    (deflt : Int) (check : Int → Option (List Char)) :
    (errListOf (intFD raw keys fname deflt check)).filterMap missingName = [] := by
  rcases h : jgetKeys raw keys with _ | v
  · simp [intFD, h, errListOf]
  · simp only [intFD, h]
    rcases h2 : coerceInt v with _ | i
    · simp [h2, errListOf, missingName]
    · rcases h3 : check i with _ | msg
      · simp [h2, h3, errListOf]
      · simp [h2, h3, errListOf, missingName]

lemma filterMap_errListOf_optStrF (raw : JObj) (keys : List String) (fname : String)
    (deflt : Option (List Char)) :
    (errListOf (optStrF raw keys fname deflt)).filterMap missingName = [] := by
  rcases h : jgetKeys raw keys with _ | v
  · simp [optStrF, h, errListOf]
  · rcases v with _ | b | n | s
    · simp [optStrF, h, errListOf]
    · simp [optStrF, h, errListOf, coerceStr]
    · simp [optStrF, h, errListOf, coerceStr]
    · simp [optStrF, h, errListOf, coerceStr]

lemma vless_missing (raw : JObj) :
    (errsOf (validateVless raw)).filterMap missingName = missingOf raw requiredVless := by
  unfold validateVless
  rw [errsOf_map]
  simp only [errsOf_acc2, errsOf_accStart, List.filterMap_append]
  rw [filterMap_errListOf_reqStrF, filterMap_errListOf_reqStrF, filterMap_errListOf_reqIntF,
    filterMap_errListOf_strFD, filterMap_errListOf_strFD, filterMap_errListOf_optStrF,
    filterMap_errListOf_optStrF, filterMap_errListOf_optStrF, filterMap_errListOf_optStrF,
    filterMap_errListOf_optStrF, filterMap_errListOf_optStrF, filterMap_errListOf_optStrF,
    filterMap_errListOf_optStrF]
  simp [missingOf, requiredVless]

lemma vmess_missing (raw : JObj) :
    (errsOf (validateVmess raw)).filterMap missingName = missingOf raw requiredVmess := by
  unfold validateVmess
  rw [errsOf_map]
  simp only [errsOf_acc2, errsOf_accStart, List.filterMap_append]
  rw [filterMap_errListOf_reqStrF, filterMap_errListOf_reqStrF, filterMap_errListOf_reqIntF,
    filterMap_errListOf_strFD, filterMap_errListOf_intFD, filterMap_errListOf_strFD,
    filterMap_errListOf_optStrF, filterMap_errListOf_optStrF, filterMap_errListOf_optStrF,
    filterMap_errListOf_optStrF, filterMap_errListOf_optStrF]
  simp [missingOf, requiredVmess]

lemma trojan_missing (raw : JObj) :
    (errsOf (validateTrojan raw)).filterMap missingName = missingOf raw requiredTrojan := by
  unfold validateTrojan
  rw [errsOf_map]
  simp only [errsOf_acc2, errsOf_accStart, List.filterMap_append]
  rw [filterMap_errListOf_reqStrF, filterMap_errListOf_reqStrF, filterMap_errListOf_reqIntF,
    filterMap_errListOf_strFD, filterMap_errListOf_optStrF, filterMap_errListOf_optStrF,
    filterMap_errListOf_optStrF, filterMap_errListOf_optStrF, filterMap_errListOf_optStrF,
    filterMap_errListOf_optStrF]
  simp [missingOf, requiredTrojan]

lemma ss_missing (raw : JObj) :
    (errsOf (validateSs raw)).filterMap missingName = missingOf raw requiredSs := by
  unfold validateSs
  rw [errsOf_map]
  simp only [errsOf_acc2, errsOf_accStart, List.filterMap_append]
  rw [filterMap_errListOf_reqStrF, filterMap_errListOf_reqStrF, filterMap_errListOf_reqStrF,
    filterMap_errListOf_reqIntF, filterMap_errListOf_strFD]
  simp [missingOf, requiredSs]

lemma hy1_missing (raw : JObj) :
    (errsOf (validateHy1 raw)).filterMap missingName = missingOf raw requiredHy1 := by
  unfold validateHy1
  rw [errsOf_map]
  simp only [errsOf_acc2, errsOf_accStart, List.filterMap_append]
  rw [filterMap_errListOf_strFD, filterMap_errListOf_reqStrF, filterMap_errListOf_reqStrF,
    filterMap_errListOf_reqIntF, filterMap_errListOf_optStrF, filterMap_errListOf_optStrF,
    filterMap_errListOf_optStrF, filterMap_errListOf_optStrF]
  simp [missingOf, requiredHy1]

lemma hy2_missing (raw : JObj) :
    (errsOf (validateHy2 raw)).filterMap missingName = missingOf raw requiredHy2 := by
  unfold validateHy2
  rw [errsOf_map]
  simp only [errsOf_acc2, errsOf_accStart, List.filterMap_append]
  rw [filterMap_errListOf_strFD, filterMap_errListOf_reqStrF, filterMap_errListOf_reqStrF,
    filterMap_errListOf_reqIntF, filterMap_errListOf_optStrF, filterMap_errListOf_optStrF,
    filterMap_errListOf_optStrF, filterMap_errListOf_optStrF, filterMap_errListOf_optStrF]
  simp [missingOf, requiredHy2]

lemma missing_implies_error {α : Type} (v : Except (List VErr) α) (m : List String)
    (hm : (errsOf v).filterMap missingName = m) (h : m ≠ []) :
    ∃ es, v = .error es ∧ es.filterMap missingName = m := by
  have hne : errsOf v ≠ [] := by
    intro h0
    rw [h0] at hm
    exact h (by simpa using hm.symm)
  exact ⟨errsOf v, eq_error_errsOf hne, hm⟩

/-! ## Claim C1 -/

/-- C1, counterexample.  The claim says an absent or empty `protocol`
field yields a `MissingProtocol` error distinct from the
`UnsupportedProtocol` error used for unregistered names.  In the code,
`config.get("protocol", "").lower()` turns both absence and emptiness
into the empty name, which then falls into the very same
`Unsupported protocol: ...` `ValueError` raised for an unregistered
non-empty name such as `foo`: the error is the `unsupportedProtocol`
kind in both situations, so no distinct `MissingProtocol` error exists. -/
theorem c1_counterexample :
    convert [("address", Json.jstr "a.com".toList)] "n".toList
        = .error (.unsupportedProtocol [])
      ∧ convert [("protocol", Json.jstr [])] "n".toList
        = .error (.unsupportedProtocol [])
      ∧ convert [("protocol", Json.jstr "foo".toList)] "n".toList
        = .error (.unsupportedProtocol "foo".toList) := by
  refine ⟨?_, ?_, ?_⟩ <;> decide

/-- C1, amended.  For every parsed JSON object whose `protocol` field is
absent or the empty string, `convert` fails with the same
`UnsupportedProtocol` error that is raised for an unregistered protocol
name, carrying the empty string as the offending name; there is no
distinct `MissingProtocol` error. -/
theorem c1_missing_protocol_is_unsupported (raw : JObj) (name : List Char)
    (h : jget raw "protocol" = none ∨ jget raw "protocol" = some (Json.jstr [])) :
    convert raw name = .error (.unsupportedProtocol []) := by
  rcases h with h | h <;> simp only [convert, h] <;> rfl

/-- C1, witness for the amended theorem. -/
theorem c1_missing_protocol_witness :
    convert [("address", Json.jstr "a.com".toList), ("port", Json.jnum 443)] "x".toList
      = .error (.unsupportedProtocol []) :=
  c1_missing_protocol_is_unsupported _ _ (Or.inl rfl)

/-! ## Claim C3 -/

/-- C3.  For every raw config for any of the six schemas with one or
more required fields absent, validation fails, and the missing-field
entries of the single accumulated pydantic error list are exactly the
absent required names in declaration order (not just the first); in
particular a trojan config with `address` and `port` but no `password`
converts into a validation error naming exactly `password` as missing. -/
theorem c3_missing_fields_accumulate :
    (∀ raw : JObj, missingOf raw requiredVless ≠ [] →
      ∃ es, validateVless raw = .error es
        ∧ es.filterMap missingName = missingOf raw requiredVless)
  ∧ (∀ raw : JObj, missingOf raw requiredVmess ≠ [] →
      ∃ es, validateVmess raw = .error es
        ∧ es.filterMap missingName = missingOf raw requiredVmess)
  ∧ (∀ raw : JObj, missingOf raw requiredTrojan ≠ [] →
      ∃ es, validateTrojan raw = .error es
        ∧ es.filterMap missingName = missingOf raw requiredTrojan)
  ∧ (∀ raw : JObj, missingOf raw requiredSs ≠ [] →
      ∃ es, validateSs raw = .error es
        ∧ es.filterMap missingName = missingOf raw requiredSs)
  ∧ (∀ raw : JObj, missingOf raw requiredHy1 ≠ [] →
      ∃ es, validateHy1 raw = .error es
        ∧ es.filterMap missingName = missingOf raw requiredHy1)
  ∧ (∀ raw : JObj, missingOf raw requiredHy2 ≠ [] →
      ∃ es, validateHy2 raw = .error es
        ∧ es.filterMap missingName = missingOf raw requiredHy2)
  ∧ (∀ name, convert [("protocol", Json.jstr "trojan".toList),
        ("address", Json.jstr "a.com".toList), ("port", Json.jnum 443)] name
      = .error (.configError (.pydantic [.missing "password"]))) := by
  refine ⟨?_, ?_, ?_, ?_, ?_, ?_, ?_⟩
  · exact fun raw h => missing_implies_error _ _ (vless_missing raw) h
  · exact fun raw h => missing_implies_error _ _ (vmess_missing raw) h
  · exact fun raw h => missing_implies_error _ _ (trojan_missing raw) h
  · exact fun raw h => missing_implies_error _ _ (ss_missing raw) h
  · exact fun raw h => missing_implies_error _ _ (hy1_missing raw) h
  · exact fun raw h => missing_implies_error _ _ (hy2_missing raw) h
  · intro name
    rfl

/-- C3, witness: a trojan raw config missing only `password`. -/
theorem c3_missing_fields_witness :
    ∃ es, validateTrojan [("protocol", Json.jstr "trojan".toList),
        ("address", Json.jstr "a.com".toList), ("port", Json.jnum 443)] = .error es
      ∧ es.filterMap missingName = ["password"] := by
  have h := c3_missing_fields_accumulate.2.2.1
    [("protocol", Json.jstr "trojan".toList), ("address", Json.jstr "a.com".toList),
     ("port", Json.jnum 443)] (by decide)
  rwa [show missingOf [("protocol", Json.jstr "trojan".toList),
    ("address", Json.jstr "a.com".toList), ("port", Json.jnum 443)] requiredTrojan
      = ["password"] from by decide] at h

/-! ## Claim C2 -/

/-- C2, counterexample.  The claim says the uuid validator of the vless
and vmess schemas accepts a string if and only if it is in canonical
8-4-4-4-12 form, rejecting for example 32 hex digits without hyphens.
But `validate_uuid` delegates to `uuid.UUID`, which strips hyphens before
checking, so the 32-digit unhyphenated string is accepted: a vless
config carrying it validates and converts successfully even though the
string is not canonical. -/
theorem c2_counterexample :
    pyUUIDAccepts "12345678123456781234567812345678".toList = true
  ∧ isCanonicalUuid "12345678123456781234567812345678".toList = false
  ∧ convert [("protocol", Json.jstr "vless".toList),
      ("uuid", Json.jstr "12345678123456781234567812345678".toList),
      ("address", Json.jstr "a.com".toList), ("port", Json.jnum 443)] "n".toList
    = .ok ("vless://12345678123456781234567812345678@a.com:443?encryption=none&type=tcp#n".toList) := by
  refine ⟨by decide, by decide, by decide⟩

/-- C2, amended.  The uuid validator used by the vless and vmess schemas
accepts every string in canonical 8-4-4-4-12 hex-with-hyphens form
(case-insensitive), but it also accepts some strings not in that form —
for example 32 hex digits without hyphens — because it delegates to
Python's `uuid.UUID`; a string it rejects, such as `not-a-uuid`, makes
validation fail with a `FieldInvalid` error naming `uuid`. -/
theorem c2_uuid_validator (s0 : List Char) (hc : isCanonicalUuid s0 = true) :
    pyUUIDAccepts s0 = true
  ∧ pyUUIDAccepts "12345678123456781234567812345678".toList = true
  ∧ (∀ name, convert [("protocol", Json.jstr "vless".toList),
      ("uuid", Json.jstr "not-a-uuid".toList),
      ("address", Json.jstr "a.com".toList), ("port", Json.jnum 443)] name
    = .error (.configError (.pydantic
        [.invalid "uuid" "Invalid UUID format: not-a-uuid".toList]))) := by
  refine ⟨canonical_pyUUIDAccepts hc, by decide, fun name => rfl⟩

/-- C2, witness for the amended theorem at a canonical uuid. -/
theorem c2_uuid_validator_witness :
    pyUUIDAccepts "A9b45678-1234-5678-1234-567812345678".toList = true :=
  (c2_uuid_validator "A9b45678-1234-5678-1234-567812345678".toList (by decide)).1

/-! ## Claim C4 -/

/-- The query parameters of the hysteria1 URI as the specification
states them: `tls=1` only if `tls` is truthy, plus `sni`, `alpn` and
`protocol` (from `protocolString`) when present (non-empty). -/
def hysteria1SpecQuery (c : Hy1R) : List (List Char × List Char) :=
  (if truthy c.tls then [("tls".toList, "1".toList)] else [])
  ++ (if truthy c.sni then [("sni".toList, getO c.sni)] else [])
  ++ (if truthy c.alpn then [("alpn".toList, getO c.alpn)] else [])
  ++ (if truthy c.protocol_string then [("protocol".toList, getO c.protocol_string)] else [])

/-- The hysteria1 URI as the specification states it:
`hysteria://{percent-encoded authString}@{address}:{port}[?{query}]#{name}`,
with the query (including its `?` separator) omitted entirely when no
optional field is present. -/
def hysteria1SpecUri (c : Hy1R) (name : List Char) : List Char :=
  "hysteria://".toList ++ pyQuote c.auth_string ++ "@".toList ++ c.address ++ ":".toList
    ++ intRepr c.port
    ++ (if hysteria1SpecQuery c = [] then []
        else "?".toList ++ urlencode (hysteria1SpecQuery c))
    ++ "#".toList ++ pyQuote name

/-- C4.  For every validated hysteria1 config, the encoded URI has the
form `hysteria://{percent-encoded authString}@{address}:{port}[?{query}]#{name}`
where the query (with its `?`) is omitted exactly when no optional field
is present (truthy) on the config, and otherwise consists of `tls=1`
(only if `tls` is truthy) plus `sni`, `alpn` and `protocol` (from
`protocolString`) when present. -/
theorem c4_hysteria1_uri_form (c : Hy1R) (name : List Char) :
    buildHysteria1Uri c name = hysteria1SpecUri c name
  ∧ (hysteria1SpecQuery c = [] ↔
      truthy c.tls = false ∧ truthy c.sni = false ∧ truthy c.alpn = false ∧
        truthy c.protocol_string = false) := by
  constructor
  · have hpq : hysteria1SpecQuery c = hy1Params c := rfl
    unfold buildHysteria1Uri hysteria1SpecUri
    rw [hpq]
    by_cases hq : hy1Params c = []
    · simp [hq]
    · rcases hne : hy1Params c with _ | ⟨p, ps⟩
      · exact absurd hne hq
      · have hu : urlencode (p :: ps) ≠ [] := urlencode_ne_nil p ps
        simp [hu, List.append_assoc]
  · cases htls : truthy c.tls <;> cases hsni : truthy c.sni <;>
      cases halpn : truthy c.alpn <;> cases hps : truthy c.protocol_string <;>
      simp [hysteria1SpecQuery, htls, hsni, halpn, hps]

/-! ## Dispatch lemmas -/

lemma convert_eq_dispatch {raw : JObj} {s : List Char} (name : List Char)
    (hj : jget raw "protocol" = some (Json.jstr s)) :
    convert raw name = dispatchProto (toLowerChars s) raw name := by
  simp only [convert, hj]

lemma dispatchProto_vless (raw : JObj) (name : List Char) :
    dispatchProto "vless".toList raw name = wrapExc (convertVless raw name) := by
  rw [dispatchProto, if_pos rfl]

lemma dispatchProto_vmess (raw : JObj) (name : List Char) :
    dispatchProto "vmess".toList raw name = wrapExc (convertVmess raw name) := by
  rw [dispatchProto, if_neg (by decide), if_pos rfl]

lemma dispatchProto_trojan (raw : JObj) (name : List Char) :
    dispatchProto "trojan".toList raw name = wrapExc (convertTrojan raw name) := by
  rw [dispatchProto, if_neg (by decide), if_neg (by decide), if_pos rfl]

lemma dispatchProto_ss (raw : JObj) (name : List Char) :
    dispatchProto "ss".toList raw name = wrapExc (convertShadowsocks raw name) := by
  rw [dispatchProto, if_neg (by decide), if_neg (by decide), if_neg (by decide), if_pos rfl]

lemma dispatchProto_shadowsocks (raw : JObj) (name : List Char) :
    dispatchProto "shadowsocks".toList raw name = wrapExc (convertShadowsocks raw name) := by
  rw [dispatchProto, if_neg (by decide), if_neg (by decide), if_neg (by decide),
    if_neg (by decide), if_pos rfl]

lemma dispatchProto_hy (raw : JObj) (name : List Char) :
    dispatchProto "hy".toList raw name = wrapExc (convertHysteria1 raw name) := by
  rw [dispatchProto, if_neg (by decide), if_neg (by decide), if_neg (by decide),
    if_neg (by decide), if_neg (by decide), if_pos rfl]

lemma dispatchProto_hysteria (raw : JObj) (name : List Char) :
    dispatchProto "hysteria".toList raw name = wrapExc (convertHysteria1 raw name) := by
  rw [dispatchProto, if_neg (by decide), if_neg (by decide), if_neg (by decide),
    if_neg (by decide), if_neg (by decide), if_neg (by decide), if_pos rfl]

lemma dispatchProto_hy2 (raw : JObj) (name : List Char) :
    dispatchProto "hy2".toList raw name = wrapExc (convertHysteria2 raw name) := by
  rw [dispatchProto, if_neg (by decide), if_neg (by decide), if_neg (by decide),
    if_neg (by decide), if_neg (by decide), if_neg (by decide), if_neg (by decide), if_pos rfl]

lemma dispatchProto_hysteria2 (raw : JObj) (name : List Char) :
    dispatchProto "hysteria2".toList raw name = wrapExc (convertHysteria2 raw name) := by
  rw [dispatchProto, if_neg (by decide), if_neg (by decide), if_neg (by decide),
    if_neg (by decide), if_neg (by decide), if_neg (by decide), if_neg (by decide),
    if_neg (by decide), if_pos rfl]

/-! ## Minimal configurations (protocol name plus required fields only) -/

def minVlessRaw (u a : List Char) (v : Json) : JObj :=
  [("protocol", Json.jstr "vless".toList), ("uuid", Json.jstr u),
   ("address", Json.jstr a), ("port", v)]

def minVmessRaw (u a : List Char) (v : Json) : JObj :=
  [("protocol", Json.jstr "vmess".toList), ("uuid", Json.jstr u),
   ("address", Json.jstr a), ("port", v)]

def minTrojanRaw (pw a : List Char) (v : Json) : JObj :=
  [("protocol", Json.jstr "trojan".toList), ("password", Json.jstr pw),
   ("address", Json.jstr a), ("port", v)]

def minSsRaw (m pw a : List Char) (v : Json) : JObj :=
  [("protocol", Json.jstr "ss".toList), ("method", Json.jstr m),
   ("password", Json.jstr pw), ("address", Json.jstr a), ("port", v)]

def minHy1Raw (au a : List Char) (v : Json) : JObj :=
  [("protocol", Json.jstr "hysteria".toList), ("authString", Json.jstr au),
   ("address", Json.jstr a), ("port", v)]

def minHy2Raw (pw a : List Char) (v : Json) : JObj :=
  [("protocol", Json.jstr "hy2".toList), ("password", Json.jstr pw),
   ("address", Json.jstr a), ("port", v)]

lemma convert_minVlessRaw (u a : List Char) (v : Json) (name : List Char) :
    convert (minVlessRaw u a v) name = wrapExc (convertVless (minVlessRaw u a v) name) := by
  have hj : jget (minVlessRaw u a v) "protocol" = some (Json.jstr "vless".toList) := rfl
  rw [convert_eq_dispatch name hj,
    show toLowerChars "vless".toList = "vless".toList from by decide, dispatchProto_vless]

lemma convert_minVmessRaw (u a : List Char) (v : Json) (name : List Char) :
    convert (minVmessRaw u a v) name = wrapExc (convertVmess (minVmessRaw u a v) name) := by
  have hj : jget (minVmessRaw u a v) "protocol" = some (Json.jstr "vmess".toList) := rfl
  rw [convert_eq_dispatch name hj,
    show toLowerChars "vmess".toList = "vmess".toList from by decide, dispatchProto_vmess]

lemma convert_minTrojanRaw (pw a : List Char) (v : Json) (name : List Char) :
    convert (minTrojanRaw pw a v) name
      = wrapExc (convertTrojan (minTrojanRaw pw a v) name) := by
  have hj : jget (minTrojanRaw pw a v) "protocol" = some (Json.jstr "trojan".toList) := rfl
  rw [convert_eq_dispatch name hj,
    show toLowerChars "trojan".toList = "trojan".toList from by decide, dispatchProto_trojan]

lemma convert_minSsRaw (m pw a : List Char) (v : Json) (name : List Char) :
    convert (minSsRaw m pw a v) name
      = wrapExc (convertShadowsocks (minSsRaw m pw a v) name) := by
  have hj : jget (minSsRaw m pw a v) "protocol" = some (Json.jstr "ss".toList) := rfl
  rw [convert_eq_dispatch name hj,
    show toLowerChars "ss".toList = "ss".toList from by decide, dispatchProto_ss]

lemma convert_minHy1Raw (au a : List Char) (v : Json) (name : List Char) :
    convert (minHy1Raw au a v) name
      = wrapExc (convertHysteria1 (minHy1Raw au a v) name) := by
  have hj : jget (minHy1Raw au a v) "protocol" = some (Json.jstr "hysteria".toList) := rfl
  rw [convert_eq_dispatch name hj,
    show toLowerChars "hysteria".toList = "hysteria".toList from by decide,
    dispatchProto_hysteria]

lemma convert_minHy2Raw (pw a : List Char) (v : Json) (name : List Char) :
    convert (minHy2Raw pw a v) name
      = wrapExc (convertHysteria2 (minHy2Raw pw a v) name) := by
  have hj : jget (minHy2Raw pw a v) "protocol" = some (Json.jstr "hy2".toList) := rfl
  rw [convert_eq_dispatch name hj,
    show toLowerChars "hy2".toList = "hy2".toList from by decide, dispatchProto_hy2]

/-! ## Validation of the minimal configurations -/

lemma validateVless_minimal (u a : List Char) (v : Int)
    (hu : uuidCheck u = none) (hp : portCheck v = none) :
    validateVless (minVlessRaw u a (Json.jnum v))
      = .ok ⟨u, a, v, "vless".toList, "none".toList, none, none, none, none,
          some "tcp".toList, none, none, none⟩ := by
  have f1 : reqStrF (minVlessRaw u a (Json.jnum v)) ["id", "uuid"] "uuid" uuidCheck
      = .ok u := by
    have hl : jgetKeys (minVlessRaw u a (Json.jnum v)) ["id", "uuid"]
        = some (Json.jstr u) := rfl
    rw [reqStrF, hl]
    simp only [coerceStr, hu]
  have f3 : reqIntF (minVlessRaw u a (Json.jnum v)) ["port"] "port" portCheck
      = .ok v := by
    have hl : jgetKeys (minVlessRaw u a (Json.jnum v)) ["port"] = some (Json.jnum v) := rfl
    rw [reqIntF, hl]
    simp only [coerceInt, hp]
  rw [validateVless, f1, f3]
  rfl

lemma validateVless_minimal_badport (u a : List Char) (v : Int) (msg : List Char)
    (hu : uuidCheck u = none) (hp : portCheck v = some msg) :
    validateVless (minVlessRaw u a (Json.jnum v))
      = .error [.invalid "port" msg] := by
  have f1 : reqStrF (minVlessRaw u a (Json.jnum v)) ["id", "uuid"] "uuid" uuidCheck
      = .ok u := by
    have hl : jgetKeys (minVlessRaw u a (Json.jnum v)) ["id", "uuid"]
        = some (Json.jstr u) := rfl
    rw [reqStrF, hl]
    simp only [coerceStr, hu]
  have f3 : reqIntF (minVlessRaw u a (Json.jnum v)) ["port"] "port" portCheck
      = .error (.invalid "port" msg) := by
    have hl : jgetKeys (minVlessRaw u a (Json.jnum v)) ["port"] = some (Json.jnum v) := rfl
    rw [reqIntF, hl]
    simp only [coerceInt, hp]
  rw [validateVless, f1, f3]
  rfl

lemma validateVmess_minimal (u a : List Char) (v : Int)
    (hu : uuidCheck u = none) (hp : portCheck v = none) :
    validateVmess (minVmessRaw u a (Json.jnum v))
      = .ok ⟨u, a, v, "vmess".toList, 0, "auto".toList, none, none,
          some "tcp".toList, none, none⟩ := by
  have f1 : reqStrF (minVmessRaw u a (Json.jnum v)) ["id", "uuid"] "uuid" uuidCheck
      = .ok u := by
    have hl : jgetKeys (minVmessRaw u a (Json.jnum v)) ["id", "uuid"]
        = some (Json.jstr u) := rfl
    rw [reqStrF, hl]
    simp only [coerceStr, hu]
  have f3 : reqIntF (minVmessRaw u a (Json.jnum v)) ["port"] "port" portCheck
      = .ok v := by
    have hl : jgetKeys (minVmessRaw u a (Json.jnum v)) ["port"] = some (Json.jnum v) := rfl
    rw [reqIntF, hl]
    simp only [coerceInt, hp]
  rw [validateVmess, f1, f3]
  rfl

lemma validateVmess_minimal_badport (u a : List Char) (v : Int) (msg : List Char)
    (hu : uuidCheck u = none) (hp : portCheck v = some msg) :
    validateVmess (minVmessRaw u a (Json.jnum v))
      = .error [.invalid "port" msg] := by
  have f1 : reqStrF (minVmessRaw u a (Json.jnum v)) ["id", "uuid"] "uuid" uuidCheck
      = .ok u := by
    have hl : jgetKeys (minVmessRaw u a (Json.jnum v)) ["id", "uuid"]
        = some (Json.jstr u) := rfl
    rw [reqStrF, hl]
    simp only [coerceStr, hu]
  have f3 : reqIntF (minVmessRaw u a (Json.jnum v)) ["port"] "port" portCheck
      = .error (.invalid "port" msg) := by
    have hl : jgetKeys (minVmessRaw u a (Json.jnum v)) ["port"] = some (Json.jnum v) := rfl
    rw [reqIntF, hl]
    simp only [coerceInt, hp]
  rw [validateVmess, f1, f3]
  rfl

lemma validateTrojan_minimal (pw a : List Char) (v : Int)
    (hpw : pwCheck pw = none) (hp : portCheck v = none) :
    validateTrojan (minTrojanRaw pw a (Json.jnum v))
      = .ok ⟨pw, a, v, "trojan".toList, some "tls".toList, none, none,
          some "tcp".toList, none, none⟩ := by
  have f1 : reqStrF (minTrojanRaw pw a (Json.jnum v)) ["password"] "password" pwCheck
      = .ok pw := by
    have hl : jgetKeys (minTrojanRaw pw a (Json.jnum v)) ["password"]
        = some (Json.jstr pw) := rfl
    rw [reqStrF, hl]
    simp only [coerceStr, hpw]
  have f3 : reqIntF (minTrojanRaw pw a (Json.jnum v)) ["port"] "port" portCheck
      = .ok v := by
    have hl : jgetKeys (minTrojanRaw pw a (Json.jnum v)) ["port"] = some (Json.jnum v) := rfl
    rw [reqIntF, hl]
    simp only [coerceInt, hp]
  rw [validateTrojan, f1, f3]
  rfl

lemma validateTrojan_minimal_badport (pw a : List Char) (v : Int) (msg : List Char)
    (hpw : pwCheck pw = none) (hp : portCheck v = some msg) :
    validateTrojan (minTrojanRaw pw a (Json.jnum v))
      = .error [.invalid "port" msg] := by
  have f1 : reqStrF (minTrojanRaw pw a (Json.jnum v)) ["password"] "password" pwCheck
      = .ok pw := by
    have hl : jgetKeys (minTrojanRaw pw a (Json.jnum v)) ["password"]
        = some (Json.jstr pw) := rfl
    rw [reqStrF, hl]
    simp only [coerceStr, hpw]
  have f3 : reqIntF (minTrojanRaw pw a (Json.jnum v)) ["port"] "port" portCheck
      = .error (.invalid "port" msg) := by
    have hl : jgetKeys (minTrojanRaw pw a (Json.jnum v)) ["port"] = some (Json.jnum v) := rfl
    rw [reqIntF, hl]
    simp only [coerceInt, hp]
  rw [validateTrojan, f1, f3]
  rfl

lemma validateSs_minimal (m pw a : List Char) (v : Int)
    (hm : methodCheck m = none) (hpw : pwCheck pw = none) (hp : portCheck v = none) :
    validateSs (minSsRaw m pw a (Json.jnum v)) = .ok ⟨m, pw, a, v, "ss".toList⟩ := by
  have f1 : reqStrF (minSsRaw m pw a (Json.jnum v)) ["method"] "method" methodCheck
      = .ok m := by
    have hl : jgetKeys (minSsRaw m pw a (Json.jnum v)) ["method"]
        = some (Json.jstr m) := rfl
    rw [reqStrF, hl]
    simp only [coerceStr, hm]
  have f2 : reqStrF (minSsRaw m pw a (Json.jnum v)) ["password"] "password" pwCheck
      = .ok pw := by
    have hl : jgetKeys (minSsRaw m pw a (Json.jnum v)) ["password"]
        = some (Json.jstr pw) := rfl
    rw [reqStrF, hl]
    simp only [coerceStr, hpw]
  have f4 : reqIntF (minSsRaw m pw a (Json.jnum v)) ["port"] "port" portCheck
      = .ok v := by
    have hl : jgetKeys (minSsRaw m pw a (Json.jnum v)) ["port"] = some (Json.jnum v) := rfl
    rw [reqIntF, hl]
    simp only [coerceInt, hp]
  rw [validateSs, f1, f2, f4]
  rfl

lemma validateSs_minimal_badport (m pw a : List Char) (v : Int) (msg : List Char)
    (hm : methodCheck m = none) (hpw : pwCheck pw = none) (hp : portCheck v = some msg) :
    validateSs (minSsRaw m pw a (Json.jnum v)) = .error [.invalid "port" msg] := by
  have f1 : reqStrF (minSsRaw m pw a (Json.jnum v)) ["method"] "method" methodCheck
      = .ok m := by
    have hl : jgetKeys (minSsRaw m pw a (Json.jnum v)) ["method"]
        = some (Json.jstr m) := rfl
    rw [reqStrF, hl]
    simp only [coerceStr, hm]
  have f2 : reqStrF (minSsRaw m pw a (Json.jnum v)) ["password"] "password" pwCheck
      = .ok pw := by
    have hl : jgetKeys (minSsRaw m pw a (Json.jnum v)) ["password"]
        = some (Json.jstr pw) := rfl
    rw [reqStrF, hl]
    simp only [coerceStr, hpw]
  have f4 : reqIntF (minSsRaw m pw a (Json.jnum v)) ["port"] "port" portCheck
      = .error (.invalid "port" msg) := by
    have hl : jgetKeys (minSsRaw m pw a (Json.jnum v)) ["port"] = some (Json.jnum v) := rfl
    rw [reqIntF, hl]
    simp only [coerceInt, hp]
  rw [validateSs, f1, f2, f4]
  rfl

lemma validateHy1_minimal (au a : List Char) (v : Int) (hp : portCheck v = none) :
    validateHy1 (minHy1Raw au a (Json.jnum v))
      = .ok ⟨"hysteria".toList, au, a, v, some "tls".toList, none,
          some "h2".toList, none⟩ := by
  have f4 : reqIntF (minHy1Raw au a (Json.jnum v)) ["port"] "port" portCheck
      = .ok v := by
    have hl : jgetKeys (minHy1Raw au a (Json.jnum v)) ["port"] = some (Json.jnum v) := rfl
    rw [reqIntF, hl]
    simp only [coerceInt, hp]
  rw [validateHy1, f4]
  rfl

lemma validateHy1_minimal_badport (au a : List Char) (v : Int) (msg : List Char)
    (hp : portCheck v = some msg) :
    validateHy1 (minHy1Raw au a (Json.jnum v)) = .error [.invalid "port" msg] := by
  have f4 : reqIntF (minHy1Raw au a (Json.jnum v)) ["port"] "port" portCheck
      = .error (.invalid "port" msg) := by
    have hl : jgetKeys (minHy1Raw au a (Json.jnum v)) ["port"] = some (Json.jnum v) := rfl
    rw [reqIntF, hl]
    simp only [coerceInt, hp]
  rw [validateHy1, f4]
  rfl

lemma validateHy2_minimal (pw a : List Char) (v : Int)
    (hpw : pwCheck pw = none) (hp : portCheck v = none) :
    validateHy2 (minHy2Raw pw a (Json.jnum v))
      = .ok ⟨"hy2".toList, pw, a, v, some "tls".toList, none,
          some "h3".toList, none, none⟩ := by
  have f2 : reqStrF (minHy2Raw pw a (Json.jnum v)) ["password"] "password" pwCheck
      = .ok pw := by
    have hl : jgetKeys (minHy2Raw pw a (Json.jnum v)) ["password"]
        = some (Json.jstr pw) := rfl
    rw [reqStrF, hl]
    simp only [coerceStr, hpw]
  have f4 : reqIntF (minHy2Raw pw a (Json.jnum v)) ["port"] "port" portCheck
      = .ok v := by
    have hl : jgetKeys (minHy2Raw pw a (Json.jnum v)) ["port"] = some (Json.jnum v) := rfl
    rw [reqIntF, hl]
    simp only [coerceInt, hp]
  rw [validateHy2, f2, f4]
  rfl

lemma validateHy2_minimal_badport (pw a : List Char) (v : Int) (msg : List Char)
    (hpw : pwCheck pw = none) (hp : portCheck v = some msg) :
    validateHy2 (minHy2Raw pw a (Json.jnum v)) = .error [.invalid "port" msg] := by
  have f2 : reqStrF (minHy2Raw pw a (Json.jnum v)) ["password"] "password" pwCheck
      = .ok pw := by
    have hl : jgetKeys (minHy2Raw pw a (Json.jnum v)) ["password"]
        = some (Json.jstr pw) := rfl
    rw [reqStrF, hl]
    simp only [coerceStr, hpw]
  have f4 : reqIntF (minHy2Raw pw a (Json.jnum v)) ["port"] "port" portCheck
      = .error (.invalid "port" msg) := by
    have hl : jgetKeys (minHy2Raw pw a (Json.jnum v)) ["port"] = some (Json.jnum v) := rfl
    rw [reqIntF, hl]
    simp only [coerceInt, hp]
  rw [validateHy2, f2, f4]
  rfl

/-! ## Claim C5 -/

/-- C5.  The shared port validator accepts an integer exactly when it
lies in `[1, 65535]`; consequently, for each of the six protocols, a
minimal config whose port is out of range (such as 0 or 65536) is
rejected with the port validation error, while the same config with an
in-range port (such as 1 or 65535) passes port validation: the five
working protocols convert successfully, and vmess passes validation and
only fails later with the encoder's unrelated `header_type`
`AttributeError`. -/
theorem c5_port_boundaries :
    (∀ v : Int, portCheck v = none ↔ 1 ≤ v ∧ v ≤ 65535)
  ∧ (∀ (name : List Char) (v : Int),
      ((1 ≤ v ∧ v ≤ 65535) → ∃ uri, convert (minVlessRaw
          "12345678-1234-5678-1234-567812345678".toList "a.com".toList (Json.jnum v)) name
        = .ok uri)
    ∧ (¬(1 ≤ v ∧ v ≤ 65535) → convert (minVlessRaw
          "12345678-1234-5678-1234-567812345678".toList "a.com".toList (Json.jnum v)) name
        = .error (.configError (.pydantic [.invalid "port" (portMsg v)]))))
  ∧ (∀ (name : List Char) (v : Int),
      ((1 ≤ v ∧ v ≤ 65535) → convert (minVmessRaw
          "12345678-1234-5678-1234-567812345678".toList "a.com".toList (Json.jnum v)) name
        = .error (.configError (.attributeError "header_type")))
    ∧ (¬(1 ≤ v ∧ v ≤ 65535) → convert (minVmessRaw
          "12345678-1234-5678-1234-567812345678".toList "a.com".toList (Json.jnum v)) name
        = .error (.configError (.pydantic [.invalid "port" (portMsg v)]))))
  ∧ (∀ (name : List Char) (v : Int),
      ((1 ≤ v ∧ v ≤ 65535) → ∃ uri, convert (minTrojanRaw
          "pass1234".toList "a.com".toList (Json.jnum v)) name = .ok uri)
    ∧ (¬(1 ≤ v ∧ v ≤ 65535) → convert (minTrojanRaw
          "pass1234".toList "a.com".toList (Json.jnum v)) name
        = .error (.configError (.pydantic [.invalid "port" (portMsg v)]))))
  ∧ (∀ (name : List Char) (v : Int),
      ((1 ≤ v ∧ v ≤ 65535) → ∃ uri, convert (minSsRaw
          "aes-256-gcm".toList "pass1234".toList "a.com".toList (Json.jnum v)) name = .ok uri)
    ∧ (¬(1 ≤ v ∧ v ≤ 65535) → convert (minSsRaw
          "aes-256-gcm".toList "pass1234".toList "a.com".toList (Json.jnum v)) name
        = .error (.configError (.pydantic [.invalid "port" (portMsg v)]))))
  ∧ (∀ (name : List Char) (v : Int),
      ((1 ≤ v ∧ v ≤ 65535) → ∃ uri, convert (minHy1Raw
          "auth".toList "a.com".toList (Json.jnum v)) name = .ok uri)
    ∧ (¬(1 ≤ v ∧ v ≤ 65535) → convert (minHy1Raw
          "auth".toList "a.com".toList (Json.jnum v)) name
        = .error (.configError (.pydantic [.invalid "port" (portMsg v)]))))
  ∧ (∀ (name : List Char) (v : Int),
      ((1 ≤ v ∧ v ≤ 65535) → ∃ uri, convert (minHy2Raw
          "pass1234".toList "a.com".toList (Json.jnum v)) name = .ok uri)
    ∧ (¬(1 ≤ v ∧ v ≤ 65535) → convert (minHy2Raw
          "pass1234".toList "a.com".toList (Json.jnum v)) name
        = .error (.configError (.pydantic [.invalid "port" (portMsg v)])))) := by
  refine ⟨?_, ?_, ?_, ?_, ?_, ?_, ?_⟩
  · intro v
    rw [portCheck]
    split_ifs with h <;> simp [h]
  · intro name v
    constructor
    · intro h
      have hpc : portCheck v = none := by rw [portCheck, if_pos h]
      have hval := validateVless_minimal
        "12345678-1234-5678-1234-567812345678".toList "a.com".toList v (by decide) hpc
      exact ⟨_, by
        rw [convert_minVlessRaw, convertVless_ok name hval]; rfl⟩
    · intro h
      have hpc : portCheck v = some (portMsg v) := by rw [portCheck, if_neg h]
      have hval := validateVless_minimal_badport
        "12345678-1234-5678-1234-567812345678".toList "a.com".toList v (portMsg v)
        (by decide) hpc
      rw [convert_minVlessRaw, convertVless_err name hval]; rfl
  · intro name v
    constructor
    · intro h
      have hpc : portCheck v = none := by rw [portCheck, if_pos h]
      have hval := validateVmess_minimal
        "12345678-1234-5678-1234-567812345678".toList "a.com".toList v (by decide) hpc
      rw [convert_minVmessRaw, convertVmess_ok name hval]; rfl
    · intro h
      have hpc : portCheck v = some (portMsg v) := by rw [portCheck, if_neg h]
      have hval := validateVmess_minimal_badport
        "12345678-1234-5678-1234-567812345678".toList "a.com".toList v (portMsg v)
        (by decide) hpc
      rw [convert_minVmessRaw, convertVmess_err name hval]; rfl
  · intro name v
    constructor
    · intro h
      have hpc : portCheck v = none := by rw [portCheck, if_pos h]
      have hval := validateTrojan_minimal "pass1234".toList "a.com".toList v (by decide) hpc
      exact ⟨_, by
        rw [convert_minTrojanRaw, convertTrojan_ok name hval]; rfl⟩
    · intro h
      have hpc : portCheck v = some (portMsg v) := by rw [portCheck, if_neg h]
      have hval := validateTrojan_minimal_badport "pass1234".toList "a.com".toList v
        (portMsg v) (by decide) hpc
      rw [convert_minTrojanRaw, convertTrojan_err name hval]; rfl
  · intro name v
    constructor
    · intro h
      have hpc : portCheck v = none := by rw [portCheck, if_pos h]
      have hval := validateSs_minimal "aes-256-gcm".toList "pass1234".toList "a.com".toList v
        (by decide) (by decide) hpc
      exact ⟨_, by
        rw [convert_minSsRaw, convertShadowsocks_ok name hval]; rfl⟩
    · intro h
      have hpc : portCheck v = some (portMsg v) := by rw [portCheck, if_neg h]
      have hval := validateSs_minimal_badport "aes-256-gcm".toList "pass1234".toList
        "a.com".toList v (portMsg v) (by decide) (by decide) hpc
      rw [convert_minSsRaw, convertShadowsocks_err name hval]; rfl
  · intro name v
    constructor
    · intro h
      have hpc : portCheck v = none := by rw [portCheck, if_pos h]
      have hval := validateHy1_minimal "auth".toList "a.com".toList v hpc
      exact ⟨_, by
        rw [convert_minHy1Raw, convertHysteria1_ok name hval]; rfl⟩
    · intro h
      have hpc : portCheck v = some (portMsg v) := by rw [portCheck, if_neg h]
      have hval := validateHy1_minimal_badport "auth".toList "a.com".toList v (portMsg v) hpc
      rw [convert_minHy1Raw, convertHysteria1_err name hval]; rfl
  · intro name v
    constructor
    · intro h
      have hpc : portCheck v = none := by rw [portCheck, if_pos h]
      have hval := validateHy2_minimal "pass1234".toList "a.com".toList v (by decide) hpc
      exact ⟨_, by
        rw [convert_minHy2Raw, convertHysteria2_ok name hval]; rfl⟩
    · intro h
      have hpc : portCheck v = some (portMsg v) := by rw [portCheck, if_neg h]
      have hval := validateHy2_minimal_badport "pass1234".toList "a.com".toList v
        (portMsg v) (by decide) hpc
      rw [convert_minHy2Raw, convertHysteria2_err name hval]; rfl

/-- C5, witness at the boundary ports 0, 1, 65535 and 65536. -/
theorem c5_port_boundaries_witness :
    (portCheck 1 = none ∧ portCheck 65535 = none)
  ∧ (∃ uri, convert (minVlessRaw "12345678-1234-5678-1234-567812345678".toList
      "a.com".toList (Json.jnum 1)) "n".toList = .ok uri)
  ∧ (∃ uri, convert (minVlessRaw "12345678-1234-5678-1234-567812345678".toList
      "a.com".toList (Json.jnum 65535)) "n".toList = .ok uri)
  ∧ convert (minVlessRaw "12345678-1234-5678-1234-567812345678".toList
      "a.com".toList (Json.jnum 0)) "n".toList
      = .error (.configError (.pydantic [.invalid "port" (portMsg 0)]))
  ∧ convert (minTrojanRaw "pass1234".toList "a.com".toList (Json.jnum 65536)) "n".toList
      = .error (.configError (.pydantic [.invalid "port" (portMsg 65536)])) :=
  ⟨⟨(c5_port_boundaries.1 1).mpr (by decide), (c5_port_boundaries.1 65535).mpr (by decide)⟩,
   (c5_port_boundaries.2.1 "n".toList 1).1 (by decide),
   (c5_port_boundaries.2.1 "n".toList 65535).1 (by decide),
   (c5_port_boundaries.2.1 "n".toList 0).2 (by decide),
   (c5_port_boundaries.2.2.2.1 "n".toList 65536).2 (by decide)⟩

/-! ## Scheme prefixes of the builders -/

lemma exists_suffix {a x : List Char} : ∃ r, a ++ x = a ++ r := ⟨x, rfl⟩

lemma buildVlessUri_scheme (c : VlessR) (name : List Char) :
    ∃ r, buildVlessUri c name = "vless://".toList ++ r := by
  simp only [buildVlessUri, List.append_assoc]
  exact exists_suffix

lemma buildTrojanUri_scheme (c : TrojanR) (name : List Char) :
    ∃ r, buildTrojanUri c name = "trojan://".toList ++ r := by
  simp only [buildTrojanUri, List.append_assoc]
  exact exists_suffix

lemma buildSsUri_scheme (c : SsR) (name : List Char) :
    ∃ r, buildSsUri c name = "ss://".toList ++ r := by
  simp only [buildSsUri, List.append_assoc]
  exact exists_suffix

lemma buildHysteria1Uri_scheme (c : Hy1R) (name : List Char) :
    ∃ r, buildHysteria1Uri c name = "hysteria://".toList ++ r := by
  rcases hpar : hy1Params c with _ | ⟨p, ps⟩
  · simp only [buildHysteria1Uri, hpar, if_pos, List.append_assoc]
    norm_num
  · have hu : urlencode (p :: ps) ≠ [] := urlencode_ne_nil p ps
    simp [buildHysteria1Uri, hpar, hu, List.append_assoc]

lemma buildHysteria2Uri_scheme (c : Hy2R) (name : List Char) :
    ∃ r, buildHysteria2Uri c name = "hy2://".toList ++ r := by
  rcases hpar : hy2Params c with _ | ⟨p, ps⟩
  · simp only [buildHysteria2Uri, hpar, if_pos, List.append_assoc]
    norm_num
  · have hu : urlencode (p :: ps) ≠ [] := urlencode_ne_nil p ps
    simp [buildHysteria2Uri, hpar, hu, List.append_assoc]

/-! ## Claim C7 -/

/-- C7.  A minimal JSON object with exactly the protocol name and the
required fields (valid values) converts without error and yields a URI
beginning with the protocol's scheme token — for five of the six
protocols.  For vmess the claim fails on the code: the minimal valid
vmess config passes schema validation but `convert_vmess` then reads the
nonexistent `header_type` attribute of `VMESSConfig`, so every vmess
conversion ends in `ValueError("Configuration validation error:
'VMESSConfig' object has no attribute 'header_type'")` instead of a
`vmess://` URI. -/
theorem c7_minimal_scheme_tokens :
    (∀ (u a : List Char) (v : Int) (name : List Char),
        isCanonicalUuid u = true → 1 ≤ v ∧ v ≤ 65535 →
        ∃ r, convert (minVlessRaw u a (Json.jnum v)) name = .ok ("vless://".toList ++ r))
  ∧ (∀ (pw a : List Char) (v : Int) (name : List Char),
        4 ≤ pw.length → 1 ≤ v ∧ v ≤ 65535 →
        ∃ r, convert (minTrojanRaw pw a (Json.jnum v)) name = .ok ("trojan://".toList ++ r))
  ∧ (∀ (m pw a : List Char) (v : Int) (name : List Char),
        m ∈ ssMethods → 4 ≤ pw.length → 1 ≤ v ∧ v ≤ 65535 →
        ∃ r, convert (minSsRaw m pw a (Json.jnum v)) name = .ok ("ss://".toList ++ r))
  ∧ (∀ (au a : List Char) (v : Int) (name : List Char), 1 ≤ v ∧ v ≤ 65535 →
        ∃ r, convert (minHy1Raw au a (Json.jnum v)) name = .ok ("hysteria://".toList ++ r))
  ∧ (∀ (pw a : List Char) (v : Int) (name : List Char),
        4 ≤ pw.length → 1 ≤ v ∧ v ≤ 65535 →
        ∃ r, convert (minHy2Raw pw a (Json.jnum v)) name = .ok ("hy2://".toList ++ r))
  ∧ (∀ name, convert (minVmessRaw "12345678-1234-5678-1234-567812345678".toList
        "a.com".toList (Json.jnum 443)) name
      = .error (.configError (.attributeError "header_type"))) := by
  refine ⟨?_, ?_, ?_, ?_, ?_, ?_⟩
  · intro u a v name hu hp
    have hpc : portCheck v = none := by rw [portCheck, if_pos hp]
    have huc : uuidCheck u = none := by
      rw [uuidCheck, if_pos (canonical_pyUUIDAccepts hu)]
    have hval := validateVless_minimal u a v huc hpc
    obtain ⟨r, hr⟩ := buildVlessUri_scheme ⟨u, a, v, "vless".toList, "none".toList, none,
      none, none, none, some "tcp".toList, none, none, none⟩ name
    exact ⟨r, by rw [convert_minVlessRaw, convertVless_ok name hval, hr]; rfl⟩
  · intro pw a v name hpw hp
    have hpc : portCheck v = none := by rw [portCheck, if_pos hp]
    have hpwc : pwCheck pw = none := by rw [pwCheck, if_neg (by omega)]
    have hval := validateTrojan_minimal pw a v hpwc hpc
    obtain ⟨r, hr⟩ := buildTrojanUri_scheme ⟨pw, a, v, "trojan".toList, some "tls".toList,
      none, none, some "tcp".toList, none, none⟩ name
    exact ⟨r, by rw [convert_minTrojanRaw, convertTrojan_ok name hval, hr]; rfl⟩
  · intro m pw a v name hm hpw hp
    have hpc : portCheck v = none := by rw [portCheck, if_pos hp]
    have hpwc : pwCheck pw = none := by rw [pwCheck, if_neg (by omega)]
    have hmc : methodCheck m = none := by rw [methodCheck, if_pos hm]
    have hval := validateSs_minimal m pw a v hmc hpwc hpc
    obtain ⟨r, hr⟩ := buildSsUri_scheme ⟨m, pw, a, v, "ss".toList⟩ name
    exact ⟨r, by rw [convert_minSsRaw, convertShadowsocks_ok name hval, hr]; rfl⟩
  · intro au a v name hp
    have hpc : portCheck v = none := by rw [portCheck, if_pos hp]
    have hval := validateHy1_minimal au a v hpc
    obtain ⟨r, hr⟩ := buildHysteria1Uri_scheme ⟨"hysteria".toList, au, a, v,
      some "tls".toList, none, some "h2".toList, none⟩ name
    exact ⟨r, by rw [convert_minHy1Raw, convertHysteria1_ok name hval, hr]; rfl⟩
  · intro pw a v name hpw hp
    have hpc : portCheck v = none := by rw [portCheck, if_pos hp]
    have hpwc : pwCheck pw = none := by rw [pwCheck, if_neg (by omega)]
    have hval := validateHy2_minimal pw a v hpwc hpc
    obtain ⟨r, hr⟩ := buildHysteria2Uri_scheme ⟨"hy2".toList, pw, a, v,
      some "tls".toList, none, some "h3".toList, none, none⟩ name
    exact ⟨r, by rw [convert_minHy2Raw, convertHysteria2_ok name hval, hr]; rfl⟩
  · intro name
    have hval := validateVmess_minimal "12345678-1234-5678-1234-567812345678".toList
      "a.com".toList 443 (by decide) (by decide)
    rw [convert_minVmessRaw, convertVmess_ok name hval]; rfl

/-- C7, witness at concrete minimal configs for the five working
protocols and the failing vmess input. -/
theorem c7_minimal_scheme_tokens_witness :
    (∃ r, convert (minVlessRaw "12345678-1234-5678-1234-567812345678".toList
        "a.com".toList (Json.jnum 443)) "n".toList = .ok ("vless://".toList ++ r))
  ∧ (∃ r, convert (minTrojanRaw "pass1234".toList "a.com".toList (Json.jnum 443)) "n".toList
      = .ok ("trojan://".toList ++ r))
  ∧ (∃ r, convert (minSsRaw "aes-256-gcm".toList "pass1234".toList "a.com".toList
        (Json.jnum 443)) "n".toList = .ok ("ss://".toList ++ r))
  ∧ (∃ r, convert (minHy1Raw "auth".toList "a.com".toList (Json.jnum 443)) "n".toList
      = .ok ("hysteria://".toList ++ r))
  ∧ (∃ r, convert (minHy2Raw "pass1234".toList "a.com".toList (Json.jnum 443)) "n".toList
      = .ok ("hy2://".toList ++ r))
  ∧ convert (minVmessRaw "12345678-1234-5678-1234-567812345678".toList
      "a.com".toList (Json.jnum 443)) "n".toList
    = .error (.configError (.attributeError "header_type")) :=
  ⟨c7_minimal_scheme_tokens.1 _ _ 443 _ (by decide) (by decide),
   c7_minimal_scheme_tokens.2.1 _ _ 443 _ (by decide) (by decide),
   c7_minimal_scheme_tokens.2.2.1 _ _ _ 443 _ (by decide) (by decide) (by decide),
   c7_minimal_scheme_tokens.2.2.2.1 _ _ 443 _ (by decide),
   c7_minimal_scheme_tokens.2.2.2.2.1 _ _ 443 _ (by decide) (by decide),
   c7_minimal_scheme_tokens.2.2.2.2.2 _⟩

/-! ## Lookup congruence lemmas -/

lemma jget_cons_ne {k key : String} (h : ¬ (k = key)) (v : Json) (rest : JObj) :
    jget ((k, v) :: rest) key = jget rest key := by
  simp [jget, h]

lemma jgetKeys_congr {raw₁ raw₂ : JObj} (keys : List String)
    (h : ∀ k ∈ keys, jget raw₁ k = jget raw₂ k) :
    jgetKeys raw₁ keys = jgetKeys raw₂ keys := by
  induction keys with
  | nil => rfl
  | cons k ks ih =>
    simp only [jgetKeys]
    rw [h k (by simp)]
    cases jget raw₂ k with
    | some v => rfl
    | none => exact ih fun k2 hk2 => h k2 (by simp [hk2])

lemma reqStrF_congr {raw₁ raw₂ : JObj} {keys : List String}
    (h : jgetKeys raw₁ keys = jgetKeys raw₂ keys) (fname : String)
    (check : List Char → Option (List Char)) :
    reqStrF raw₁ keys fname check = reqStrF raw₂ keys fname check := by
  rw [reqStrF, reqStrF, h]

lemma reqIntF_congr {raw₁ raw₂ : JObj} {keys : List String}
    (h : jgetKeys raw₁ keys = jgetKeys raw₂ keys) (fname : String)
    (check : Int → Option (List Char)) :
    reqIntF raw₁ keys fname check = reqIntF raw₂ keys fname check := by
  rw [reqIntF, reqIntF, h]

lemma strFD_congr {raw₁ raw₂ : JObj} {keys : List String}
    (h : jgetKeys raw₁ keys = jgetKeys raw₂ keys) (fname : String) (deflt : List Char) :
    strFD raw₁ keys fname deflt = strFD raw₂ keys fname deflt := by
  rw [strFD, strFD, h]

lemma intFD_congr {raw₁ raw₂ : JObj} {keys : List String}
    (h : jgetKeys raw₁ keys = jgetKeys raw₂ keys) (fname : String) (deflt : Int)
    (check : Int → Option (List Char)) :
    intFD raw₁ keys fname deflt check = intFD raw₂ keys fname deflt check := by
  rw [intFD, intFD, h]

lemma optStrF_congr {raw₁ raw₂ : JObj} {keys : List String}
    (h : jgetKeys raw₁ keys = jgetKeys raw₂ keys) (fname : String)
    (deflt : Option (List Char)) :
    optStrF raw₁ keys fname deflt = optStrF raw₂ keys fname deflt := by
  rw [optStrF, optStrF, h]

/-! ## Claim C6 -/

/-- Modelled from the spec: the vmess intermediate object of §4.3,
`{v:"2", ps:name, add, port, id, aid, net, type, tls, sni, path?, host?,
cipher?}`, which the code's `convert_vmess` can never build because its
dict construction reads the `header_type` attribute that `VMESSConfig`
does not declare (`type` therefore takes the spec's default `none`). -/
def vmessSpecPayload (c : VmessR) (name : List Char) : List (String × Json) :=
  [("v", Json.jstr "2".toList), ("ps", Json.jstr name), ("add", Json.jstr c.address),
   ("port", Json.jnum c.port), ("id", Json.jstr c.uuid), ("aid", Json.jnum c.aid),
   ("net", Json.jstr (orDefault c.network "tcp".toList)),
   ("type", Json.jstr "none".toList),
   ("tls", Json.jstr (getO c.tls)), ("sni", Json.jstr (getO c.sni))]
  ++ (if truthy c.path then [("path", Json.jstr (getO c.path))] else [])
  ++ (if truthy c.host then [("host", Json.jstr (getO c.host))] else [])
  ++ (if c.cipher.isEmpty then [] else [("cipher", Json.jstr c.cipher)])

/-- Modelled from the spec: `vmess://{base64(compact json payload)}`. -/
def vmessSpecUri (c : VmessR) (name : List Char) : List Char :=
  "vmess://".toList ++ b64encode (utf8Str (jsonDumps (vmessSpecPayload c name)))

/-- C6, code-bug evidence.  The claim describes the base64 payload of the
vmess output, but the code never produces any vmess output: for every
schema-valid vmess config, `convert_vmess` evaluates
`vmess_config.header_type` while building its payload dict, `VMESSConfig`
declares no such field, and the resulting `AttributeError` is wrapped
into `ValueError("Configuration validation error: ...")`.  The intended
encoder as the specification words it (third conjunct) would satisfy the
claim: its payload, recovered by base64-decoding the part after
`vmess://`, carries `v = "2"`, `ps` = the display name, and `port` as the
numeric input port. -/
theorem c6_vmess_payload :
    (∀ (u a : List Char) (v : Int) (name : List Char),
        uuidCheck u = none → portCheck v = none →
        convert (minVmessRaw u a (Json.jnum v)) name
          = .error (.configError (.attributeError "header_type")))
  ∧ convert [("protocol", Json.jstr "vmess".toList),
      ("uuid", Json.jstr "12345678-1234-5678-1234-567812345678".toList),
      ("address", Json.jstr "example.com".toList), ("port", Json.jnum 443)] "My Server".toList
    = .error (.configError (.attributeError "header_type"))
  ∧ (∀ (c : VmessR) (name : List Char), ∃ enc,
      vmessSpecUri c name = "vmess://".toList ++ enc
      ∧ b64decode enc = some (utf8Str (jsonDumps (vmessSpecPayload c name)))
      ∧ jget (vmessSpecPayload c name) "v" = some (.jstr "2".toList)
      ∧ jget (vmessSpecPayload c name) "ps" = some (.jstr name)
      ∧ jget (vmessSpecPayload c name) "port" = some (.jnum c.port)) := by
  refine ⟨?_, by decide, ?_⟩
  · intro u a v name hu hp
    have hval := validateVmess_minimal u a v hu hp
    rw [convert_minVmessRaw, convertVmess_ok name hval]; rfl
  · intro c name
    exact ⟨_, rfl, b64decode_b64encode _ (utf8Str_lt _), rfl, rfl, rfl⟩

/-- C6, witness: the failing input evaluated through the code. -/
theorem c6_vmess_payload_witness :
    convert (minVmessRaw "12345678-1234-5678-1234-567812345678".toList "a.com".toList
      (Json.jnum 443)) "n".toList = .error (.configError (.attributeError "header_type")) :=
  c6_vmess_payload.1 _ _ 443 _ (by decide) (by decide)

/-! ## Claim C8 -/

lemma convertShadowsocks_protocol_irrelevant (other : JObj) (p₁ p₂ : List Char)
    (name : List Char) :
    convertShadowsocks (("protocol", Json.jstr p₁) :: other) name
      = convertShadowsocks (("protocol", Json.jstr p₂) :: other) name := by
  have hg : ∀ key, ¬ ("protocol" = key) →
      jget (("protocol", Json.jstr p₁) :: other) key
        = jget (("protocol", Json.jstr p₂) :: other) key := by
    intro key hk
    rw [jget_cons_ne hk, jget_cons_ne hk]
  have hm := reqStrF_congr
    (@jgetKeys_congr (("protocol", Json.jstr p₁) :: other)
      (("protocol", Json.jstr p₂) :: other) ["method"] (by
      intro k hk
      simp only [List.mem_singleton] at hk
      subst hk
      exact hg "method" (by decide))) "method" methodCheck
  have hpw := reqStrF_congr
    (@jgetKeys_congr (("protocol", Json.jstr p₁) :: other)
      (("protocol", Json.jstr p₂) :: other) ["password"] (by
      intro k hk
      simp only [List.mem_singleton] at hk
      subst hk
      exact hg "password" (by decide))) "password" pwCheck
  have ha := reqStrF_congr
    (@jgetKeys_congr (("protocol", Json.jstr p₁) :: other)
      (("protocol", Json.jstr p₂) :: other) ["address"] (by
      intro k hk
      simp only [List.mem_singleton] at hk
      subst hk
      exact hg "address" (by decide))) "address" noCheck
  have hpo := reqIntF_congr
    (@jgetKeys_congr (("protocol", Json.jstr p₁) :: other)
      (("protocol", Json.jstr p₂) :: other) ["port"] (by
      intro k hk
      simp only [List.mem_singleton] at hk
      subst hk
      exact hg "port" (by decide))) "port" portCheck
  rw [convertShadowsocks, convertShadowsocks, validateSs, validateSs, hm, hpw, ha, hpo,
    show strFD (("protocol", Json.jstr p₁) :: other) ["protocol"] "protocol" "ss".toList
      = .ok p₁ from rfl,
    show strFD (("protocol", Json.jstr p₂) :: other) ["protocol"] "protocol" "ss".toList
      = .ok p₂ from rfl]
  rcases hX : acc2 (acc2 (acc2 (accStart
      (reqStrF (("protocol", Json.jstr p₂) :: other) ["method"] "method" methodCheck))
      (reqStrF (("protocol", Json.jstr p₂) :: other) ["password"] "password" pwCheck))
      (reqStrF (("protocol", Json.jstr p₂) :: other) ["address"] "address" noCheck))
      (reqIntF (("protocol", Json.jstr p₂) :: other) ["port"] "port" portCheck)
    with es | c4
  · simp [acc2]
  · obtain ⟨⟨⟨m, pw⟩, a⟩, v⟩ := c4
    simp [acc2, Except.map, Except.mapError, buildSsUri]

/-- C8.  Two parsed inputs identical except for the protocol field, one
resolving (case-insensitively) to `ss` and the other to `shadowsocks`,
convert to the very same result — in particular the same `ss://` scheme,
the same `address:port`, and the same base64 userinfo; and the userinfo
of any shadowsocks URI base64-decodes to `method:password`. -/
theorem c8_ss_shadowsocks_equivalent (other : JObj) (p₁ p₂ name : List Char)
    (h₁ : toLowerChars p₁ = "ss".toList ∨ toLowerChars p₁ = "shadowsocks".toList)
    (h₂ : toLowerChars p₂ = "ss".toList ∨ toLowerChars p₂ = "shadowsocks".toList) :
    convert (("protocol", Json.jstr p₁) :: other) name
      = convert (("protocol", Json.jstr p₂) :: other) name
  ∧ (∀ (c : SsR) (nm : List Char), ∃ rest,
      buildSsUri c nm
        = "ss://".toList ++ (b64encode (utf8Str (c.method ++ ':' :: c.password)) ++ rest)
      ∧ b64decode (b64encode (utf8Str (c.method ++ ':' :: c.password)))
        = some (utf8Str (c.method ++ ':' :: c.password))) := by
  constructor
  · have hj1 : jget (("protocol", Json.jstr p₁) :: other) "protocol"
        = some (Json.jstr p₁) := rfl
    have hj2 : jget (("protocol", Json.jstr p₂) :: other) "protocol"
        = some (Json.jstr p₂) := rfl
    rw [convert_eq_dispatch name hj1, convert_eq_dispatch name hj2]
    have hd1 : dispatchProto (toLowerChars p₁) (("protocol", Json.jstr p₁) :: other) name
        = wrapExc (convertShadowsocks (("protocol", Json.jstr p₁) :: other) name) := by
      rcases h₁ with h | h <;> rw [h]
      · exact dispatchProto_ss _ _
      · exact dispatchProto_shadowsocks _ _
    have hd2 : dispatchProto (toLowerChars p₂) (("protocol", Json.jstr p₂) :: other) name
        = wrapExc (convertShadowsocks (("protocol", Json.jstr p₂) :: other) name) := by
      rcases h₂ with h | h <;> rw [h]
      · exact dispatchProto_ss _ _
      · exact dispatchProto_shadowsocks _ _
    rw [hd1, hd2, convertShadowsocks_protocol_irrelevant other p₁ p₂ name]
  · intro c nm
    obtain ⟨rest, hrest⟩ : ∃ rest, buildSsUri c nm
        = "ss://".toList ++ (b64encode (utf8Str (c.method ++ ':' :: c.password)) ++ rest) := by
      simp only [buildSsUri, List.append_assoc]
      exact ⟨_, rfl⟩
    exact ⟨rest, hrest, b64decode_b64encode _ (utf8Str_lt _)⟩

/-- C8, witness: a concrete pair of equivalent `ss` / `Shadowsocks`
inputs. -/
theorem c8_ss_shadowsocks_equivalent_witness :
    convert [("protocol", Json.jstr "ss".toList), ("method", Json.jstr "aes-256-gcm".toList),
      ("password", Json.jstr "pass1234".toList), ("address", Json.jstr "a.com".toList),
      ("port", Json.jnum 8388)] "n".toList
    = convert [("protocol", Json.jstr "Shadowsocks".toList),
      ("method", Json.jstr "aes-256-gcm".toList), ("password", Json.jstr "pass1234".toList),
      ("address", Json.jstr "a.com".toList), ("port", Json.jnum 8388)] "n".toList :=
  (c8_ss_shadowsocks_equivalent
    [("method", Json.jstr "aes-256-gcm".toList), ("password", Json.jstr "pass1234".toList),
     ("address", Json.jstr "a.com".toList), ("port", Json.jnum 8388)]
    "ss".toList "Shadowsocks".toList "n".toList (by decide) (by decide)).1

/-! ## Claim C9 -/

/-- All keys the vless schema reads: field names and declared aliases. -/
def vlessKeys : List String :=
  ["protocol", "id", "uuid", "address", "port", "encryption", "flow", "tls", "sni",
   "alpn", "network", "path", "host", "headerType", "header_type"]

def vmessKeys : List String :=
  ["protocol", "id", "uuid", "address", "port", "aid", "cipher", "tls", "sni",
   "network", "path", "host"]

def trojanKeys : List String :=
  ["protocol", "password", "address", "port", "tls", "sni", "alpn", "network",
   "path", "host"]

def ssKeys : List String := ["protocol", "method", "password", "address", "port"]

def hy1Keys : List String :=
  ["protocol", "authString", "auth_string", "address", "port", "tls", "sni", "alpn",
   "protocolString", "protocol_string"]

def hy2Keys : List String :=
  ["protocol", "password", "address", "port", "tls", "sni", "alpn", "obfs",
   "obfsPassword", "obfs_password"]

/-- The keys read while converting a config whose lowered protocol name
is `p` (just `protocol` when `p` is not registered). -/
def schemaKeys (p : List Char) : List String :=
  if p = "vless".toList then vlessKeys
  else if p = "vmess".toList then vmessKeys
  else if p = "trojan".toList then trojanKeys
  else if p = "ss".toList ∨ p = "shadowsocks".toList then ssKeys
  else if p = "hy".toList ∨ p = "hysteria".toList then hy1Keys
  else if p = "hy2".toList ∨ p = "hysteria2".toList then hy2Keys
  else ["protocol"]

lemma protocol_mem_schemaKeys (p : List Char) : "protocol" ∈ schemaKeys p := by
  rw [schemaKeys]
  split_ifs <;> decide

lemma jget_append_ne {key k : String} (h : ¬ (key = k)) (fields : JObj) (val : Json) :
    jget (fields ++ [(k, val)]) key = jget fields key := by
  induction fields with
  | nil =>
    simp only [List.nil_append, jget]
    rw [if_neg fun hh => h hh.symm]
  | cons kv rest ih =>
    obtain ⟨k0, v0⟩ := kv
    simp only [List.cons_append, jget, List.append_eq]
    rw [ih]

lemma validateVless_append (fields : JObj) (k : String) (val : Json)
    (hk : k ∉ vlessKeys) :
    validateVless (fields ++ [(k, val)]) = validateVless fields := by
  have hsub : ∀ (keys : List String), (∀ x ∈ keys, x ∈ vlessKeys) →
      jgetKeys (fields ++ [(k, val)]) keys = jgetKeys fields keys := by
    intro keys hss
    refine jgetKeys_congr keys fun k2 h2 => ?_
    refine jget_append_ne (fun hh => hk ?_) fields val
    rw [← hh]
    exact hss k2 h2
  rw [validateVless, validateVless,
    reqStrF_congr (hsub ["id", "uuid"] (by decide)) "uuid" uuidCheck,
    reqStrF_congr (hsub ["address"] (by decide)) "address" noCheck,
    reqIntF_congr (hsub ["port"] (by decide)) "port" portCheck,
    strFD_congr (hsub ["protocol"] (by decide)) "protocol" "vless".toList,
    strFD_congr (hsub ["encryption"] (by decide)) "encryption" "none".toList,
    optStrF_congr (hsub ["flow"] (by decide)) "flow" none,
    optStrF_congr (hsub ["tls"] (by decide)) "tls" none,
    optStrF_congr (hsub ["sni"] (by decide)) "sni" none,
    optStrF_congr (hsub ["alpn"] (by decide)) "alpn" none,
    optStrF_congr (hsub ["network"] (by decide)) "network" (some "tcp".toList),
    optStrF_congr (hsub ["path"] (by decide)) "path" none,
    optStrF_congr (hsub ["host"] (by decide)) "host" none,
    optStrF_congr (hsub ["headerType", "header_type"] (by decide)) "header_type" none]

lemma validateVmess_append (fields : JObj) (k : String) (val : Json)
    (hk : k ∉ vmessKeys) :
    validateVmess (fields ++ [(k, val)]) = validateVmess fields := by
  have hsub : ∀ (keys : List String), (∀ x ∈ keys, x ∈ vmessKeys) →
      jgetKeys (fields ++ [(k, val)]) keys = jgetKeys fields keys := by
    intro keys hss
    refine jgetKeys_congr keys fun k2 h2 => ?_
    refine jget_append_ne (fun hh => hk ?_) fields val
    rw [← hh]
    exact hss k2 h2
  rw [validateVmess, validateVmess,
    reqStrF_congr (hsub ["id", "uuid"] (by decide)) "uuid" uuidCheck,
    reqStrF_congr (hsub ["address"] (by decide)) "address" noCheck,
    reqIntF_congr (hsub ["port"] (by decide)) "port" portCheck,
    strFD_congr (hsub ["protocol"] (by decide)) "protocol" "vmess".toList,
    intFD_congr (hsub ["aid"] (by decide)) "aid" 0 aidCheck,
    strFD_congr (hsub ["cipher"] (by decide)) "cipher" "auto".toList,
    optStrF_congr (hsub ["tls"] (by decide)) "tls" none,
    optStrF_congr (hsub ["sni"] (by decide)) "sni" none,
    optStrF_congr (hsub ["network"] (by decide)) "network" (some "tcp".toList),
    optStrF_congr (hsub ["path"] (by decide)) "path" none,
    optStrF_congr (hsub ["host"] (by decide)) "host" none]

lemma validateTrojan_append (fields : JObj) (k : String) (val : Json)
    (hk : k ∉ trojanKeys) :
    validateTrojan (fields ++ [(k, val)]) = validateTrojan fields := by
  have hsub : ∀ (keys : List String), (∀ x ∈ keys, x ∈ trojanKeys) →
      jgetKeys (fields ++ [(k, val)]) keys = jgetKeys fields keys := by
    intro keys hss
    refine jgetKeys_congr keys fun k2 h2 => ?_
    refine jget_append_ne (fun hh => hk ?_) fields val
    rw [← hh]
    exact hss k2 h2
  rw [validateTrojan, validateTrojan,
    reqStrF_congr (hsub ["password"] (by decide)) "password" pwCheck,
    reqStrF_congr (hsub ["address"] (by decide)) "address" noCheck,
    reqIntF_congr (hsub ["port"] (by decide)) "port" portCheck,
    strFD_congr (hsub ["protocol"] (by decide)) "protocol" "trojan".toList,
    optStrF_congr (hsub ["tls"] (by decide)) "tls" (some "tls".toList),
    optStrF_congr (hsub ["sni"] (by decide)) "sni" none,
    optStrF_congr (hsub ["alpn"] (by decide)) "alpn" none,
    optStrF_congr (hsub ["network"] (by decide)) "network" (some "tcp".toList),
    optStrF_congr (hsub ["path"] (by decide)) "path" none,
    optStrF_congr (hsub ["host"] (by decide)) "host" none]

lemma validateSs_append (fields : JObj) (k : String) (val : Json)
    (hk : k ∉ ssKeys) :
    validateSs (fields ++ [(k, val)]) = validateSs fields := by
  have hsub : ∀ (keys : List String), (∀ x ∈ keys, x ∈ ssKeys) →
      jgetKeys (fields ++ [(k, val)]) keys = jgetKeys fields keys := by
    intro keys hss
    refine jgetKeys_congr keys fun k2 h2 => ?_
    refine jget_append_ne (fun hh => hk ?_) fields val
    rw [← hh]
    exact hss k2 h2
  rw [validateSs, validateSs,
    reqStrF_congr (hsub ["method"] (by decide)) "method" methodCheck,
    reqStrF_congr (hsub ["password"] (by decide)) "password" pwCheck,
    reqStrF_congr (hsub ["address"] (by decide)) "address" noCheck,
    reqIntF_congr (hsub ["port"] (by decide)) "port" portCheck,
    strFD_congr (hsub ["protocol"] (by decide)) "protocol" "ss".toList]

lemma validateHy1_append (fields : JObj) (k : String) (val : Json)
    (hk : k ∉ hy1Keys) :
    validateHy1 (fields ++ [(k, val)]) = validateHy1 fields := by
  have hsub : ∀ (keys : List String), (∀ x ∈ keys, x ∈ hy1Keys) →
      jgetKeys (fields ++ [(k, val)]) keys = jgetKeys fields keys := by
    intro keys hss
    refine jgetKeys_congr keys fun k2 h2 => ?_
    refine jget_append_ne (fun hh => hk ?_) fields val
    rw [← hh]
    exact hss k2 h2
  rw [validateHy1, validateHy1,
    strFD_congr (hsub ["protocol"] (by decide)) "protocol" "hy".toList,
    reqStrF_congr (hsub ["authString", "auth_string"] (by decide)) "auth_string" noCheck,
    reqStrF_congr (hsub ["address"] (by decide)) "address" noCheck,
    reqIntF_congr (hsub ["port"] (by decide)) "port" portCheck,
    optStrF_congr (hsub ["tls"] (by decide)) "tls" (some "tls".toList),
    optStrF_congr (hsub ["sni"] (by decide)) "sni" none,
    optStrF_congr (hsub ["alpn"] (by decide)) "alpn" (some "h2".toList),
    optStrF_congr (hsub ["protocolString", "protocol_string"] (by decide))
      "protocol_string" none]

lemma validateHy2_append (fields : JObj) (k : String) (val : Json)
    (hk : k ∉ hy2Keys) :
    validateHy2 (fields ++ [(k, val)]) = validateHy2 fields := by
  have hsub : ∀ (keys : List String), (∀ x ∈ keys, x ∈ hy2Keys) →
      jgetKeys (fields ++ [(k, val)]) keys = jgetKeys fields keys := by
    intro keys hss
    refine jgetKeys_congr keys fun k2 h2 => ?_
    refine jget_append_ne (fun hh => hk ?_) fields val
    rw [← hh]
    exact hss k2 h2
  rw [validateHy2, validateHy2,
    strFD_congr (hsub ["protocol"] (by decide)) "protocol" "hy2".toList,
    reqStrF_congr (hsub ["password"] (by decide)) "password" pwCheck,
    reqStrF_congr (hsub ["address"] (by decide)) "address" noCheck,
    reqIntF_congr (hsub ["port"] (by decide)) "port" portCheck,
    optStrF_congr (hsub ["tls"] (by decide)) "tls" (some "tls".toList),
    optStrF_congr (hsub ["sni"] (by decide)) "sni" none,
    optStrF_congr (hsub ["alpn"] (by decide)) "alpn" (some "h3".toList),
    optStrF_congr (hsub ["obfs"] (by decide)) "obfs" none,
    optStrF_congr (hsub ["obfsPassword", "obfs_password"] (by decide)) "obfs_password" none]

/-- C9.  Adding an extra key that is neither a schema field nor a
declared alias of one (nor `protocol`) to a parsed input leaves the
conversion result — URI or error — unchanged: unknown fields are
silently ignored and never influence the encoded output. -/
theorem c9_unknown_fields_ignored (fields : JObj) (p : List Char) (k : String)
    (val : Json) (name : List Char)
    (hp : jget fields "protocol" = some (Json.jstr p))
    (hk : k ∉ schemaKeys (toLowerChars p)) :
    convert (fields ++ [(k, val)]) name = convert fields name := by
  have hkp : ¬ ("protocol" = k) := fun hh =>
    hk (hh ▸ protocol_mem_schemaKeys (toLowerChars p))
  have hp2 : jget (fields ++ [(k, val)]) "protocol" = some (Json.jstr p) := by
    rw [jget_append_ne hkp fields val, hp]
  rw [convert_eq_dispatch name hp2, convert_eq_dispatch name hp]
  rw [dispatchProto, dispatchProto]
  by_cases h1 : toLowerChars p = "vless".toList
  · rw [if_pos h1, if_pos h1, convertVless, convertVless, validateVless_append fields k val
      (by rw [h1, show schemaKeys "vless".toList = vlessKeys from by decide] at hk; exact hk)]
  rw [if_neg h1, if_neg h1]
  by_cases h2 : toLowerChars p = "vmess".toList
  · rw [if_pos h2, if_pos h2, convertVmess, convertVmess, validateVmess_append fields k val
      (by rw [h2, show schemaKeys "vmess".toList = vmessKeys from by decide] at hk; exact hk)]
  rw [if_neg h2, if_neg h2]
  by_cases h3 : toLowerChars p = "trojan".toList
  · rw [if_pos h3, if_pos h3, convertTrojan, convertTrojan, validateTrojan_append fields k val
      (by rw [h3, show schemaKeys "trojan".toList = trojanKeys from by decide] at hk;
          exact hk)]
  rw [if_neg h3, if_neg h3]
  by_cases h4 : toLowerChars p = "ss".toList
  · rw [if_pos h4, if_pos h4, convertShadowsocks, convertShadowsocks,
      validateSs_append fields k val
      (by rw [h4, show schemaKeys "ss".toList = ssKeys from by decide] at hk; exact hk)]
  rw [if_neg h4, if_neg h4]
  by_cases h5 : toLowerChars p = "shadowsocks".toList
  · rw [if_pos h5, if_pos h5, convertShadowsocks, convertShadowsocks,
      validateSs_append fields k val
      (by rw [h5, show schemaKeys "shadowsocks".toList = ssKeys from by decide] at hk;
          exact hk)]
  rw [if_neg h5, if_neg h5]
  by_cases h6 : toLowerChars p = "hy".toList
  · rw [if_pos h6, if_pos h6, convertHysteria1, convertHysteria1,
      validateHy1_append fields k val
      (by rw [h6, show schemaKeys "hy".toList = hy1Keys from by decide] at hk; exact hk)]
  rw [if_neg h6, if_neg h6]
  by_cases h7 : toLowerChars p = "hysteria".toList
  · rw [if_pos h7, if_pos h7, convertHysteria1, convertHysteria1,
      validateHy1_append fields k val
      (by rw [h7, show schemaKeys "hysteria".toList = hy1Keys from by decide] at hk;
          exact hk)]
  rw [if_neg h7, if_neg h7]
  by_cases h8 : toLowerChars p = "hy2".toList
  · rw [if_pos h8, if_pos h8, convertHysteria2, convertHysteria2,
      validateHy2_append fields k val
      (by rw [h8, show schemaKeys "hy2".toList = hy2Keys from by decide] at hk; exact hk)]
  rw [if_neg h8, if_neg h8]
  by_cases h9 : toLowerChars p = "hysteria2".toList
  · rw [if_pos h9, if_pos h9, convertHysteria2, convertHysteria2,
      validateHy2_append fields k val
      (by rw [h9, show schemaKeys "hysteria2".toList = hy2Keys from by decide] at hk;
          exact hk)]
  rw [if_neg h9, if_neg h9]

/-- C9, witness: adding an unknown key `comment` to a valid vless input
does not change its URI. -/
theorem c9_unknown_fields_ignored_witness :
    convert ([("protocol", Json.jstr "vless".toList),
      ("uuid", Json.jstr "12345678-1234-5678-1234-567812345678".toList),
      ("address", Json.jstr "a.com".toList), ("port", Json.jnum 443)]
        ++ [("comment", Json.jstr "hello".toList)]) "n".toList
    = convert [("protocol", Json.jstr "vless".toList),
      ("uuid", Json.jstr "12345678-1234-5678-1234-567812345678".toList),
      ("address", Json.jstr "a.com".toList), ("port", Json.jnum 443)] "n".toList :=
  c9_unknown_fields_ignored _ "vless".toList "comment" (Json.jstr "hello".toList)
    "n".toList rfl (by decide)

/-! ## Claim C10 -/

lemma jgetKeys_single (raw : JObj) (k : String) : jgetKeys raw [k] = jget raw k := by
  simp only [jgetKeys]
  cases jget raw k <;> rfl

lemma jget_mid_ne {key kmid : String} (h : ¬ (key = kmid)) (pre post : JObj) (a b : Json) :
    jget (pre ++ (kmid, a) :: post) key = jget (pre ++ (kmid, b) :: post) key := by
  induction pre with
  | nil =>
    simp only [List.nil_append, jget]
    rw [if_neg fun hh => h hh.symm, if_neg fun hh => h hh.symm]
  | cons kv rest ih =>
    obtain ⟨k0, v0⟩ := kv
    simp only [List.cons_append, jget, List.append_eq]
    rw [ih]

lemma jget_mid_coerce (pre post : JObj) (kmid : String) (a b : Json)
    (hab : coerceInt a = coerceInt b) :
    (jget (pre ++ (kmid, a) :: post) kmid).map coerceInt
      = (jget (pre ++ (kmid, b) :: post) kmid).map coerceInt := by
  induction pre with
  | nil =>
    simp only [List.nil_append, jget, if_pos]
    simp [hab]
  | cons kv rest ih =>
    obtain ⟨k0, v0⟩ := kv
    simp only [List.cons_append, jget, List.append_eq]
    by_cases h0 : k0 = kmid
    · rw [if_pos h0, if_pos h0]
    · rw [if_neg h0, if_neg h0, ih]

lemma reqIntF_eq (raw : JObj) (keys : List String) (fname : String)
    (check : Int → Option (List Char)) :
    reqIntF raw keys fname check
      = match (jgetKeys raw keys).map coerceInt with
        | none => .error (.missing fname)
        | some none => .error (.invalid fname intTypeMsg)
        | some (some i) =>
          match check i with
          | none => .ok i
          | some msg => .error (.invalid fname msg) := by
  rw [reqIntF]
  rcases jgetKeys raw keys with _ | v
  · rfl
  · simp only [Option.map_some']
    rcases coerceInt v with _ | i
    · rfl
    · rfl

lemma reqIntF_coerce_congr {raw₁ raw₂ : JObj} {keys : List String} (fname : String)
    (check : Int → Option (List Char))
    (h : (jgetKeys raw₁ keys).map coerceInt = (jgetKeys raw₂ keys).map coerceInt) :
    reqIntF raw₁ keys fname check = reqIntF raw₂ keys fname check := by
  rw [reqIntF_eq, reqIntF_eq, h]

lemma validateVless_portswap (pre post : JObj) (a b : Json)
    (hab : coerceInt a = coerceInt b) :
    validateVless (pre ++ ("port", a) :: post) = validateVless (pre ++ ("port", b) :: post) := by
  have hne : ∀ (keys : List String), "port" ∉ keys →
      jgetKeys (pre ++ ("port", a) :: post) keys
        = jgetKeys (pre ++ ("port", b) :: post) keys := by
    intro keys hp
    refine jgetKeys_congr keys fun k2 h2 => ?_
    refine jget_mid_ne (fun hh => hp ?_) pre post a b
    rw [← hh]
    exact h2
  have hport : (jgetKeys (pre ++ ("port", a) :: post) ["port"]).map coerceInt
      = (jgetKeys (pre ++ ("port", b) :: post) ["port"]).map coerceInt := by
    rw [jgetKeys_single, jgetKeys_single]
    exact jget_mid_coerce pre post "port" a b hab
  rw [validateVless, validateVless,
    reqStrF_congr (hne ["id", "uuid"] (by decide)) "uuid" uuidCheck,
    reqStrF_congr (hne ["address"] (by decide)) "address" noCheck,
    reqIntF_coerce_congr "port" portCheck hport,
    strFD_congr (hne ["protocol"] (by decide)) "protocol" "vless".toList,
    strFD_congr (hne ["encryption"] (by decide)) "encryption" "none".toList,
    optStrF_congr (hne ["flow"] (by decide)) "flow" none,
    optStrF_congr (hne ["tls"] (by decide)) "tls" none,
    optStrF_congr (hne ["sni"] (by decide)) "sni" none,
    optStrF_congr (hne ["alpn"] (by decide)) "alpn" none,
    optStrF_congr (hne ["network"] (by decide)) "network" (some "tcp".toList),
    optStrF_congr (hne ["path"] (by decide)) "path" none,
    optStrF_congr (hne ["host"] (by decide)) "host" none,
    optStrF_congr (hne ["headerType", "header_type"] (by decide)) "header_type" none]

lemma validateVmess_portswap (pre post : JObj) (a b : Json)
    (hab : coerceInt a = coerceInt b) :
    validateVmess (pre ++ ("port", a) :: post) = validateVmess (pre ++ ("port", b) :: post) := by
  have hne : ∀ (keys : List String), "port" ∉ keys →
      jgetKeys (pre ++ ("port", a) :: post) keys
        = jgetKeys (pre ++ ("port", b) :: post) keys := by
    intro keys hp
    refine jgetKeys_congr keys fun k2 h2 => ?_
    refine jget_mid_ne (fun hh => hp ?_) pre post a b
    rw [← hh]
    exact h2
  have hport : (jgetKeys (pre ++ ("port", a) :: post) ["port"]).map coerceInt
      = (jgetKeys (pre ++ ("port", b) :: post) ["port"]).map coerceInt := by
    rw [jgetKeys_single, jgetKeys_single]
    exact jget_mid_coerce pre post "port" a b hab
  rw [validateVmess, validateVmess,
    reqStrF_congr (hne ["id", "uuid"] (by decide)) "uuid" uuidCheck,
    reqStrF_congr (hne ["address"] (by decide)) "address" noCheck,
    reqIntF_coerce_congr "port" portCheck hport,
    strFD_congr (hne ["protocol"] (by decide)) "protocol" "vmess".toList,
    intFD_congr (hne ["aid"] (by decide)) "aid" 0 aidCheck,
    strFD_congr (hne ["cipher"] (by decide)) "cipher" "auto".toList,
    optStrF_congr (hne ["tls"] (by decide)) "tls" none,
    optStrF_congr (hne ["sni"] (by decide)) "sni" none,
    optStrF_congr (hne ["network"] (by decide)) "network" (some "tcp".toList),
    optStrF_congr (hne ["path"] (by decide)) "path" none,
    optStrF_congr (hne ["host"] (by decide)) "host" none]

lemma validateTrojan_portswap (pre post : JObj) (a b : Json)
    (hab : coerceInt a = coerceInt b) :
    validateTrojan (pre ++ ("port", a) :: post)
      = validateTrojan (pre ++ ("port", b) :: post) := by
  have hne : ∀ (keys : List String), "port" ∉ keys →
      jgetKeys (pre ++ ("port", a) :: post) keys
        = jgetKeys (pre ++ ("port", b) :: post) keys := by
    intro keys hp
    refine jgetKeys_congr keys fun k2 h2 => ?_
    refine jget_mid_ne (fun hh => hp ?_) pre post a b
    rw [← hh]
    exact h2
  have hport : (jgetKeys (pre ++ ("port", a) :: post) ["port"]).map coerceInt
      = (jgetKeys (pre ++ ("port", b) :: post) ["port"]).map coerceInt := by
    rw [jgetKeys_single, jgetKeys_single]
    exact jget_mid_coerce pre post "port" a b hab
  rw [validateTrojan, validateTrojan,
    reqStrF_congr (hne ["password"] (by decide)) "password" pwCheck,
    reqStrF_congr (hne ["address"] (by decide)) "address" noCheck,
    reqIntF_coerce_congr "port" portCheck hport,
    strFD_congr (hne ["protocol"] (by decide)) "protocol" "trojan".toList,
    optStrF_congr (hne ["tls"] (by decide)) "tls" (some "tls".toList),
    optStrF_congr (hne ["sni"] (by decide)) "sni" none,
    optStrF_congr (hne ["alpn"] (by decide)) "alpn" none,
    optStrF_congr (hne ["network"] (by decide)) "network" (some "tcp".toList),
    optStrF_congr (hne ["path"] (by decide)) "path" none,
    optStrF_congr (hne ["host"] (by decide)) "host" none]

lemma validateSs_portswap (pre post : JObj) (a b : Json)
    (hab : coerceInt a = coerceInt b) :
    validateSs (pre ++ ("port", a) :: post) = validateSs (pre ++ ("port", b) :: post) := by
  have hne : ∀ (keys : List String), "port" ∉ keys →
      jgetKeys (pre ++ ("port", a) :: post) keys
        = jgetKeys (pre ++ ("port", b) :: post) keys := by
    intro keys hp
    refine jgetKeys_congr keys fun k2 h2 => ?_
    refine jget_mid_ne (fun hh => hp ?_) pre post a b
    rw [← hh]
    exact h2
  have hport : (jgetKeys (pre ++ ("port", a) :: post) ["port"]).map coerceInt
      = (jgetKeys (pre ++ ("port", b) :: post) ["port"]).map coerceInt := by
    rw [jgetKeys_single, jgetKeys_single]
    exact jget_mid_coerce pre post "port" a b hab
  rw [validateSs, validateSs,
    reqStrF_congr (hne ["method"] (by decide)) "method" methodCheck,
    reqStrF_congr (hne ["password"] (by decide)) "password" pwCheck,
    reqStrF_congr (hne ["address"] (by decide)) "address" noCheck,
    reqIntF_coerce_congr "port" portCheck hport,
    strFD_congr (hne ["protocol"] (by decide)) "protocol" "ss".toList]

lemma validateHy1_portswap (pre post : JObj) (a b : Json)
    (hab : coerceInt a = coerceInt b) :
    validateHy1 (pre ++ ("port", a) :: post) = validateHy1 (pre ++ ("port", b) :: post) := by
  have hne : ∀ (keys : List String), "port" ∉ keys →
      jgetKeys (pre ++ ("port", a) :: post) keys
        = jgetKeys (pre ++ ("port", b) :: post) keys := by
    intro keys hp
    refine jgetKeys_congr keys fun k2 h2 => ?_
    refine jget_mid_ne (fun hh => hp ?_) pre post a b
    rw [← hh]
    exact h2
  have hport : (jgetKeys (pre ++ ("port", a) :: post) ["port"]).map coerceInt
      = (jgetKeys (pre ++ ("port", b) :: post) ["port"]).map coerceInt := by
    rw [jgetKeys_single, jgetKeys_single]
    exact jget_mid_coerce pre post "port" a b hab
  rw [validateHy1, validateHy1,
    strFD_congr (hne ["protocol"] (by decide)) "protocol" "hy".toList,
    reqStrF_congr (hne ["authString", "auth_string"] (by decide)) "auth_string" noCheck,
    reqStrF_congr (hne ["address"] (by decide)) "address" noCheck,
    reqIntF_coerce_congr "port" portCheck hport,
    optStrF_congr (hne ["tls"] (by decide)) "tls" (some "tls".toList),
    optStrF_congr (hne ["sni"] (by decide)) "sni" none,
    optStrF_congr (hne ["alpn"] (by decide)) "alpn" (some "h2".toList),
    optStrF_congr (hne ["protocolString", "protocol_string"] (by decide))
      "protocol_string" none]

lemma validateHy2_portswap (pre post : JObj) (a b : Json)
    (hab : coerceInt a = coerceInt b) :
    validateHy2 (pre ++ ("port", a) :: post) = validateHy2 (pre ++ ("port", b) :: post) := by
  have hne : ∀ (keys : List String), "port" ∉ keys →
      jgetKeys (pre ++ ("port", a) :: post) keys
        = jgetKeys (pre ++ ("port", b) :: post) keys := by
    intro keys hp
    refine jgetKeys_congr keys fun k2 h2 => ?_
    refine jget_mid_ne (fun hh => hp ?_) pre post a b
    rw [← hh]
    exact h2
  have hport : (jgetKeys (pre ++ ("port", a) :: post) ["port"]).map coerceInt
      = (jgetKeys (pre ++ ("port", b) :: post) ["port"]).map coerceInt := by
    rw [jgetKeys_single, jgetKeys_single]
    exact jget_mid_coerce pre post "port" a b hab
  rw [validateHy2, validateHy2,
    strFD_congr (hne ["protocol"] (by decide)) "protocol" "hy2".toList,
    reqStrF_congr (hne ["password"] (by decide)) "password" pwCheck,
    reqStrF_congr (hne ["address"] (by decide)) "address" noCheck,
    reqIntF_coerce_congr "port" portCheck hport,
    optStrF_congr (hne ["tls"] (by decide)) "tls" (some "tls".toList),
    optStrF_congr (hne ["sni"] (by decide)) "sni" none,
    optStrF_congr (hne ["alpn"] (by decide)) "alpn" (some "h3".toList),
    optStrF_congr (hne ["obfs"] (by decide)) "obfs" none,
    optStrF_congr (hne ["obfsPassword", "obfs_password"] (by decide)) "obfs_password" none]

set_option maxHeartbeats 1600000 in
lemma dispatchProto_portswap (q : List Char) (pre post : JObj) (a b : Json)
    (name : List Char) (hab : coerceInt a = coerceInt b) :
    dispatchProto q (pre ++ ("port", a) :: post) name
      = dispatchProto q (pre ++ ("port", b) :: post) name := by
  rw [dispatchProto, dispatchProto]
  split_ifs <;>
    first
      | rw [convertVless, convertVless, validateVless_portswap pre post a b hab]
      | rw [convertVmess, convertVmess, validateVmess_portswap pre post a b hab]
      | rw [convertTrojan, convertTrojan, validateTrojan_portswap pre post a b hab]
      | rw [convertShadowsocks, convertShadowsocks, validateSs_portswap pre post a b hab]
      | rw [convertHysteria1, convertHysteria1, validateHy1_portswap pre post a b hab]
      | rw [convertHysteria2, convertHysteria2, validateHy2_portswap pre post a b hab]
      | rfl

lemma convert_portswap (pre post : JObj) (a b : Json) (name : List Char)
    (hab : coerceInt a = coerceInt b) :
    convert (pre ++ ("port", a) :: post) name = convert (pre ++ ("port", b) :: post) name := by
  have hp : jget (pre ++ ("port", a) :: post) "protocol"
      = jget (pre ++ ("port", b) :: post) "protocol" :=
    jget_mid_ne (by decide) pre post a b
  rw [convert, convert, hp]
  cases jget (pre ++ ("port", b) :: post) "protocol" with
  | none => exact dispatchProto_portswap [] pre post a b name hab
  | some j =>
    cases j with
    | jnull => rfl
    | jbool bb => rfl
    | jnum nn => rfl
    | jstr s => exact dispatchProto_portswap (toLowerChars s) pre post a b name hab

/-- C10.  A port given as a decimal numeric string is coerced by the
schemas' `int` field to its integer value before range checking and
encoding, so for every protocol the conversion result is identical to
that of the same input with the integer port. -/
theorem c10_numeric_string_port (pre post : JObj) (name : List Char) (n : Nat) :
    coerceInt (Json.jstr (natRepr n)) = some (Int.ofNat n)
  ∧ convert (pre ++ ("port", Json.jstr (natRepr n)) :: post) name
      = convert (pre ++ ("port", Json.jnum (Int.ofNat n)) :: post) name := by
  have hc : coerceInt (Json.jstr (natRepr n)) = some (Int.ofNat n) := by
    simp only [coerceInt]
    exact parsePyInt_natRepr n
  exact ⟨hc, convert_portswap pre post _ _ name (by rw [hc]; rfl)⟩

end VC
